import Mathlib

/-!
# Kernel dispatch of `ppl/common/ocl/kernel.h`

A shallow embedding of the two function templates of `kernel.h`,
`setKernelArg` and `runOclKernel`, together with theorems about the order
and the arguments of the calls they make.

The header only *declares* the primitives it calls (`clSetKernelArg`,
`getKernelFromPool`, `compileOclKernels`, `getKernelNames`, `clCreateKernel`,
`insertKernelToPool`, `validateNDrange`, `enqueueOclKernel`) and the
`FrameChain` getters.  They are parameters of the embedding: an environment
`Env σ` of state-passing functions over an arbitrary world state `σ`.  Every
call of a primitive is recorded, with its arguments and its result, in a
trace of `Event`s, so that "is called", "is called before" and "is never
called" are statements about that trace.  `LOG(ERROR)` statements have no
influence on control flow and are left out.
-/

namespace ppl.common.ocl

/-! ## Data model -/

/-- Native status code (`cl_int`). -/
abbrev cl_int := Int

/-- The status code of a successful native call. -/
def CL_SUCCESS : cl_int := 0

/-- A kernel handle (`cl_kernel`), a pointer; `0` is the null pointer. -/
abbrev cl_kernel := Nat

/-- The null kernel handle (`nullptr`). -/
def nullKernel : cl_kernel := 0

/-- A compute context handle (`cl_context`). -/
abbrev cl_context := Nat

/-- A compiled program handle (`cl_program`). -/
abbrev cl_program := Nat

/-- A `FrameChain*`. -/
abbrev FrameChainPtr := Nat

/-- Work dimension count (`cl_uint`); only passed through. -/
abbrev cl_uint := Nat

/-- A `size_t*` work-size vector (absent when the pointer is null); only
passed through. -/
abbrev WorkSize := Option (List Nat)

/-- One element of the variadic argument pack: `sizeof(T)` and the object
the pointer `&value` designates. -/
structure KernelArg where
  size : Nat
  value : Nat
deriving DecidableEq, Repr

/-- One call of a primitive, with its arguments and what it returned. -/
inductive Event where
  | getKernelFromPool (context : cl_context) (project_name kernel_name : String)
      (ret : cl_kernel)
  | compileOclKernels (frame_chain : FrameChainPtr) (ret : Bool)
  | getKernelNames (program : cl_program) (kernel_names : List String)
  | clCreateKernel (program : cl_program) (name : String) (ret : cl_kernel)
      (error_code : cl_int)
  | insertKernelToPool (context : cl_context) (project_name kernel_name : String)
      (kernel : cl_kernel) (ret : Bool)
  | clSetKernelArg (kernel : cl_kernel) (index : Nat) (size : Nat) (value : Nat)
      (ret : cl_int)
  | validateNDrange (work_dims : cl_uint) (global_work_size local_work_size : WorkSize)
      (ret : Bool)
  | enqueueOclKernel (frame_chain : FrameChainPtr) (kernel_name : String)
      (kernel : cl_kernel) (work_dims : cl_uint)
      (global_work_size local_work_size : WorkSize) (ret : Bool)
deriving DecidableEq, Repr

/-- The primitives `kernel.h` calls but does not define, as state-passing
functions over a world state `σ` (device, pool, frame chains). -/
structure Env (σ : Type) where
  /-- The member `frame_chain->getContext()`. -/
  getContext : σ → FrameChainPtr → cl_context
  /-- The member `frame_chain->getProjectName()`. -/
  getProjectName : σ → FrameChainPtr → String
  /-- The member `frame_chain->getProgram()`. -/
  getProgram : σ → FrameChainPtr → cl_program
  getKernelFromPool : σ → cl_context → String → String → cl_kernel × σ
  compileOclKernels : σ → FrameChainPtr → Bool × σ
  /-- Returns its `bool` and the contents it leaves in `kernel_names`. -/
  getKernelNames : σ → cl_program → (Bool × List String) × σ
  /-- Returns the handle and the value written to `error_code`. -/
  clCreateKernel : σ → cl_program → String → (cl_kernel × cl_int) × σ
  insertKernelToPool : σ → cl_context → String → String → cl_kernel → Bool × σ
  clSetKernelArg : σ → cl_kernel → Nat → Nat → Nat → cl_int × σ
  validateNDrange : σ → cl_uint → WorkSize → WorkSize → Bool × σ
  enqueueOclKernel : σ → FrameChainPtr → String → cl_kernel → cl_uint → WorkSize →
    WorkSize → Bool × σ

/-- What a call of `setKernelArg` leaves behind: the returned code, the calls
made, the world state. -/
structure ArgResult (σ : Type) where
  code : cl_int
  trace : List Event
  state : σ

/-- The `return` statement through which `runOclKernel` leaves. -/
inductive Exit where
  /-- Line 83, after `compileOclKernels` returned false. -/
  | compileFailed
  /-- Line 96, after `clCreateKernel` reported an error. -/
  | createKernelFailed
  /-- Line 112, `kernel == nullptr`. -/
  | noValidKernel
  /-- Line 117, `setKernelArg` returned an error. -/
  | setKernelArgFailed
  /-- Line 123, `validateNDrange` returned false. -/
  | invalidNDrange
  /-- Line 130, `enqueueOclKernel` returned false. -/
  | enqueueFailed
  /-- The end of the function body. -/
  | completed
deriving DecidableEq, Repr

/-- What a call of `runOclKernel` leaves behind. -/
structure RunResult (σ : Type) where
  exit : Exit
  trace : List Event
  state : σ

/-! ## The code -/

variable {σ : Type}

/-- The two overloads of `template <size_t INDEX, ...> setKernelArg` (lines
43-67): `rest = []` is the single-value overload, `rest = r :: rs` the
variadic one, which recurses with `INDEX + 1`. -/
def setKernelArg (env : Env σ) (kernel : cl_kernel) :
    Nat → KernelArg → List KernelArg → σ → ArgResult σ
  | INDEX, value, [], s =>
    let c := env.clSetKernelArg s kernel INDEX value.size value.value
    { code := c.1
      trace := [Event.clSetKernelArg kernel INDEX value.size value.value c.1]
      state := c.2 }
  | INDEX, value, r :: rs, s =>
    let c := env.clSetKernelArg s kernel INDEX value.size value.value
    if c.1 ≠ CL_SUCCESS then
      { code := c.1
        trace := [Event.clSetKernelArg kernel INDEX value.size value.value c.1]
        state := c.2 }
    else
      let k := setKernelArg env kernel (INDEX + 1) r rs c.2
      { code := k.code
        trace := Event.clSetKernelArg kernel INDEX value.size value.value c.1 :: k.trace
        state := k.state }

/-- The `for` loop of `runOclKernel` (lines 90-108) over the remaining
`kernel_names`, entered with the current value of the local `kernel`.  The
first component is `none` when the loop leaves the function through the
`return` of line 96, and the value of `kernel` after the loop otherwise. -/
def createKernels (env : Env σ) (program : cl_program) (context : cl_context)
    (project_name kernel_name : String) :
    List String → cl_kernel → σ → Option cl_kernel × List Event × σ
  | [], kernel, s => (some kernel, [], s)
  | n :: ns, kernel, s =>
    let c := env.clCreateKernel s program n
    if c.1.2 ≠ CL_SUCCESS then
      (none, [Event.clCreateKernel program n c.1.1 c.1.2], c.2)
    else
      let kernel1 := if n = kernel_name then c.1.1 else kernel
      let i := env.insertKernelToPool c.2 context project_name n c.1.1
      let k := createKernels env program context project_name kernel_name ns kernel1 i.2
      (k.1,
        Event.clCreateKernel program n c.1.1 c.1.2 ::
          Event.insertKernelToPool context project_name n c.1.1 i.1 :: k.2.1,
        k.2.2)

/-- Lines 110-132 of `runOclKernel`, the code both branches of the cache
lookup continue with, entered with the value of the local `kernel`. -/
def dispatchKernel (env : Env σ) (frame_chain : FrameChainPtr) (kernel_name_cstr : String)
    (work_dims : cl_uint) (global_work_size local_work_size : WorkSize)
    (value : KernelArg) (rest : List KernelArg) (kernel : cl_kernel) (s : σ) :
    RunResult σ :=
  if kernel = nullKernel then
    { exit := Exit.noValidKernel, trace := [], state := s }
  else
    let a := setKernelArg env kernel 0 value rest s
    if a.code ≠ CL_SUCCESS then
      { exit := Exit.setKernelArgFailed, trace := a.trace, state := a.state }
    else
      let v := env.validateNDrange a.state work_dims global_work_size local_work_size
      let vev := Event.validateNDrange work_dims global_work_size local_work_size v.1
      if v.1 = false then
        { exit := Exit.invalidNDrange, trace := a.trace ++ [vev], state := v.2 }
      else
        let e := env.enqueueOclKernel v.2 frame_chain kernel_name_cstr kernel work_dims
          global_work_size local_work_size
        let eev := Event.enqueueOclKernel frame_chain kernel_name_cstr kernel work_dims
          global_work_size local_work_size e.1
        { exit := if e.1 = false then Exit.enqueueFailed else Exit.completed
          trace := a.trace ++ [vev, eev]
          state := e.2 }

/-- The function template `runOclKernel` (lines 69-132).  The argument pack
`args...` is `value :: rest`: `setKernelArg<0, Args...>` has no overload for
an empty pack. -/
def runOclKernel (env : Env σ) (s : σ) (frame_chain : FrameChainPtr)
    (kernel_name_cstr : String) (work_dims : cl_uint)
    (global_work_size local_work_size : WorkSize)
    (value : KernelArg) (rest : List KernelArg) : RunResult σ :=
  let context := env.getContext s frame_chain
  let project_name := env.getProjectName s frame_chain
  let kernel_name := kernel_name_cstr
  let g := env.getKernelFromPool s context project_name kernel_name
  let gev := Event.getKernelFromPool context project_name kernel_name g.1
  if g.1 = nullKernel then
    let c := env.compileOclKernels g.2 frame_chain
    let cev := Event.compileOclKernels frame_chain c.1
    if c.1 = false then
      { exit := Exit.compileFailed, trace := [gev, cev], state := c.2 }
    else
      let program := env.getProgram c.2 frame_chain
      let n := env.getKernelNames c.2 program
      let nev := Event.getKernelNames program n.1.2
      let k := createKernels env program context project_name kernel_name n.1.2 g.1 n.2
      match k.1 with
      | none =>
        { exit := Exit.createKernelFailed, trace := gev :: cev :: nev :: k.2.1,
          state := k.2.2 }
      | some kernel =>
        let d := dispatchKernel env frame_chain kernel_name_cstr work_dims global_work_size
          local_work_size value rest kernel k.2.2
        { exit := d.exit, trace := gev :: cev :: nev :: (k.2.1 ++ d.trace), state := d.state }
  else
    let d := dispatchKernel env frame_chain kernel_name_cstr work_dims global_work_size
      local_work_size value rest g.1 g.2
    { exit := d.exit, trace := gev :: d.trace, state := d.state }

/-! ## Vocabulary for traces -/

/-- Which primitive an event is a call of. -/
inductive Kind where
  | lookup | compile | names | create | insert | setArg | validate | enqueue
deriving DecidableEq, Repr

/-- The primitive an event is a call of. -/
def Event.kind : Event → Kind
  | Event.getKernelFromPool _ _ _ _ => Kind.lookup
  | Event.compileOclKernels _ _ => Kind.compile
  | Event.getKernelNames _ _ => Kind.names
  | Event.clCreateKernel _ _ _ _ => Kind.create
  | Event.insertKernelToPool _ _ _ _ _ => Kind.insert
  | Event.clSetKernelArg _ _ _ _ _ => Kind.setArg
  | Event.validateNDrange _ _ _ _ => Kind.validate
  | Event.enqueueOclKernel _ _ _ _ _ _ _ => Kind.enqueue

/-- The calls of one primitive in a trace, in order. -/
def calls (k : Kind) (t : List Event) : List Event :=
  t.filter (fun e => decide (e.kind = k))

/-- The kernel handle an event passes to argument binding or to enqueue. -/
def Event.usedKernel : Event → Option cl_kernel
  | Event.clSetKernelArg kernel _ _ _ _ => some kernel
  | Event.enqueueOclKernel _ _ kernel _ _ _ _ => some kernel
  | _ => none

/-- A call of `clCreateKernel` that reported an error code. -/
def Event.createFailed : Event → Bool
  | Event.clCreateKernel _ _ _ error_code => decide (error_code ≠ CL_SUCCESS)
  | _ => false

/-- The calls `clSetKernelArg(kernel, i, sizeof, &value)` for the arguments
`args` at the indices `i, i+1, ...`, paired with the codes they returned;
as many calls as there are codes (at most one per argument). -/
def argCalls (kernel : cl_kernel) : Nat → List KernelArg → List cl_int → List Event
  | i, a :: as, c :: cs =>
    Event.clSetKernelArg kernel i a.size a.value c :: argCalls kernel (i + 1) as cs
  | _, _, _ => []

/-- One completed round of the `for` loop: the name, the handle
`clCreateKernel` returned for it with `CL_SUCCESS`, and what
`insertKernelToPool` returned for that handle. -/
structure Created where
  name : String
  kernel : cl_kernel
  inserted : Bool
deriving DecidableEq, Repr

/-- The calls of a sequence of completed rounds: for each round, in order,
the creation followed by the insert of the created handle. -/
def populationTrace (program : cl_program) (context : cl_context) (project_name : String) :
    List Created → List Event
  | [] => []
  | c :: cs =>
    Event.clCreateKernel program c.name c.kernel CL_SUCCESS ::
      Event.insertKernelToPool context project_name c.name c.kernel c.inserted ::
        populationTrace program context project_name cs

/-- The value of the local `kernel` after a sequence of completed rounds:
the handle of the last round whose name is the requested one, the initial
value when there is none. -/
def selectKernel (kernel_name : String) : List Created → cl_kernel → cl_kernel
  | [], kernel => kernel
  | c :: cs, kernel => selectKernel kernel_name cs (if c.name = kernel_name then c.kernel else kernel)

/-- The call `getKernelFromPool(context, project_name, kernel_name)` of line 78. -/
def poolLookup (env : Env σ) (s : σ) (frame_chain : FrameChainPtr) (kernel_name : String) :
    cl_kernel × σ :=
  env.getKernelFromPool s (env.getContext s frame_chain) (env.getProjectName s frame_chain)
    kernel_name

/-- The call `compileOclKernels(frame_chain)` of line 80, made after a miss. -/
def compiled (env : Env σ) (s : σ) (frame_chain : FrameChainPtr) (kernel_name : String) :
    Bool × σ :=
  env.compileOclKernels (poolLookup env s frame_chain kernel_name).2 frame_chain

/-- The value `frame_chain->getProgram()` of line 85. -/
def compiledProgram (env : Env σ) (s : σ) (frame_chain : FrameChainPtr)
    (kernel_name : String) : cl_program :=
  env.getProgram (compiled env s frame_chain kernel_name).2 frame_chain

/-- The call `getKernelNames(program, kernel_names)` of line 88. -/
def enumerated (env : Env σ) (s : σ) (frame_chain : FrameChainPtr) (kernel_name : String) :
    (Bool × List String) × σ :=
  env.getKernelNames (compiled env s frame_chain kernel_name).2
    (compiledProgram env s frame_chain kernel_name)

/-- The contents of `kernel_names` the loop of line 90 runs over. -/
def enumeratedNames (env : Env σ) (s : σ) (frame_chain : FrameChainPtr)
    (kernel_name : String) : List String :=
  (enumerated env s frame_chain kernel_name).1.2

/-- The loop of lines 90-108 as `runOclKernel` runs it after a miss and a
successful compilation. -/
def population (env : Env σ) (s : σ) (frame_chain : FrameChainPtr) (kernel_name : String) :
    Option cl_kernel × List Event × σ :=
  createKernels env (compiledProgram env s frame_chain kernel_name)
    (env.getContext s frame_chain) (env.getProjectName s frame_chain) kernel_name
    (enumeratedNames env s frame_chain kernel_name) nullKernel
    (enumerated env s frame_chain kernel_name).2

/-- The call misses the cache: the lookup of line 78 returns `nullptr`. -/
def CacheMiss (env : Env σ) (s : σ) (frame_chain : FrameChainPtr) (kernel_name : String) :
    Prop :=
  (poolLookup env s frame_chain kernel_name).1 = nullKernel

/-- The compilation of line 80 returns true. -/
def CompileSucceeds (env : Env σ) (s : σ) (frame_chain : FrameChainPtr)
    (kernel_name : String) : Prop :=
  (compiled env s frame_chain kernel_name).1 = true

instance (env : Env σ) (s : σ) (frame_chain : FrameChainPtr) (kernel_name : String) :
    Decidable (CacheMiss env s frame_chain kernel_name) :=
  inferInstanceAs (Decidable (_ = nullKernel))

instance (env : Env σ) (s : σ) (frame_chain : FrameChainPtr) (kernel_name : String) :
    Decidable (CompileSucceeds env s frame_chain kernel_name) :=
  inferInstanceAs (Decidable (_ = true))

/-- No call of `clCreateKernel` in the trace reported an error. -/
def AllCreated (t : List Event) : Prop :=
  ∀ e ∈ t, e.createFailed = false

/-- A call of `clCreateKernel` that returned the null handle together with
`CL_SUCCESS`. -/
def Event.createdNull : Event → Bool
  | Event.clCreateKernel _ _ ret error_code =>
    decide (error_code = CL_SUCCESS) && decide (ret = nullKernel)
  | _ => false

/-- Every handle `clCreateKernel` returned with `CL_SUCCESS` in the trace is
non-null (what the OpenCL API promises for a successful creation). -/
def HandlesNonNull (t : List Event) : Prop :=
  ∀ e ∈ t, e.createdNull = false

instance (t : List Event) : Decidable (AllCreated t) :=
  inferInstanceAs (Decidable (∀ e ∈ t, e.createFailed = false))

instance (t : List Event) : Decidable (HandlesNonNull t) :=
  inferInstanceAs (Decidable (∀ e ∈ t, e.createdNull = false))

/-- The first three calls of a run that misses and compiles successfully. -/
def missOpening (env : Env σ) (s : σ) (frame_chain : FrameChainPtr) (kernel_name : String) :
    List Event :=
  [Event.getKernelFromPool (env.getContext s frame_chain) (env.getProjectName s frame_chain)
      kernel_name nullKernel,
    Event.compileOclKernels frame_chain true,
    Event.getKernelNames (compiledProgram env s frame_chain kernel_name)
      (enumeratedNames env s frame_chain kernel_name)]

/-- A call of `insertKernelToPool` that returned true. -/
def Event.insertSucceeded : Event → Bool
  | Event.insertKernelToPool _ _ _ _ ret => ret
  | _ => false

/-- The event with the value returned by `insertKernelToPool` blanked out
(set to true); other events are unchanged. -/
def Event.eraseInsertResult : Event → Event
  | Event.insertKernelToPool context project_name kernel_name kernel _ =>
    Event.insertKernelToPool context project_name kernel_name kernel true
  | e => e

/-- The call of `insertKernelToPool` of a completed round. -/
def Created.insertEvent (context : cl_context) (project_name : String) (c : Created) : Event :=
  Event.insertKernelToPool context project_name c.name c.kernel c.inserted

/-- The handle `kernel` was obtained for the requested name: returned by the
pool lookup, or returned with `CL_SUCCESS` by a creation for that name. -/
def Obtained (t : List Event) (context : cl_context) (project_name kernel_name : String)
    (kernel : cl_kernel) : Prop :=
  Event.getKernelFromPool context project_name kernel_name kernel ∈ t ∨
    ∃ program, Event.clCreateKernel program kernel_name kernel CL_SUCCESS ∈ t

/-- The run of `setKernelArg` on `kernel` returned `CL_SUCCESS` for the whole
argument list: the binding calls of the trace are one successful call per
argument, at the indices 0, 1, 2, ... -/
def BoundAll (t : List Event) (kernel : cl_kernel) (args : List KernelArg) : Prop :=
  calls Kind.setArg t = argCalls kernel 0 args (List.replicate args.length CL_SUCCESS)

/-- The call `validateNDrange` returned true for this geometry. -/
def Validated (t : List Event) (work_dims : cl_uint)
    (global_work_size local_work_size : WorkSize) : Prop :=
  Event.validateNDrange work_dims global_work_size local_work_size true ∈ t

/-- No argument is bound, no geometry validated, nothing enqueued. -/
def NoDispatch (t : List Event) : Prop :=
  ∀ e ∈ t, e.kind ≠ Kind.setArg ∧ e.kind ≠ Kind.validate ∧ e.kind ≠ Kind.enqueue

/-- Every call of `insertKernelToPool` in the trace returned false. -/
def PopulationFailedEntirely (t : List Event) : Prop :=
  ∀ e ∈ t, e.insertSucceeded = false

instance (t : List Event) : Decidable (NoDispatch t) :=
  inferInstanceAs (Decidable (∀ e ∈ t,
    e.kind ≠ Kind.setArg ∧ e.kind ≠ Kind.validate ∧ e.kind ≠ Kind.enqueue))

instance (t : List Event) : Decidable (PopulationFailedEntirely t) :=
  inferInstanceAs (Decidable (∀ e ∈ t, e.insertSucceeded = false))

/-- For every enumerated name a kernel object is created with `CL_SUCCESS` and
the next call is the insert of that object under (context, project, name). -/
def BulkPopulated (env : Env σ) (s : σ) (frame_chain : FrameChainPtr) (kernel_name : String)
    (t : List Event) : Prop :=
  ∀ n ∈ enumeratedNames env s frame_chain kernel_name, ∃ h ok,
    [Event.clCreateKernel (compiledProgram env s frame_chain kernel_name) n h CL_SUCCESS,
      Event.insertKernelToPool (env.getContext s frame_chain)
        (env.getProjectName s frame_chain) n h ok] <:+: t

/-- The environment in which `insertKernelToPool` reports `f ...` instead of
its own result, with the same effect on the world state. -/
def withInsertResult (env : Env σ)
    (f : σ → cl_context → String → String → cl_kernel → Bool) : Env σ :=
  { env with
    insertKernelToPool := fun s context project_name kernel_name kernel =>
      (f s context project_name kernel_name kernel,
        (env.insertKernelToPool s context project_name kernel_name kernel).2) }

/-! ## The kernel pool -/

/-- The composite key (context, project name, kernel name). -/
abbrev PoolKey := cl_context × String × String

/-- Modelled from the spec: the Kernel Pool of `kernelpool.h`, which is not
among the sources.  "A mapping from the composite key (Compute Context,
Project Name, Kernel Name) to Kernel Handle", at most one handle per key. -/
abbrev KernelPool := List (PoolKey × cl_kernel)

/-- Modelled from the spec: the stored handle of `kernelpool.h`, which is not
among the sources: "`lookup(context, project, kernelName) -> KernelHandle |
absent`". -/
def KernelPool.find (pool : KernelPool) (key : PoolKey) : Option cl_kernel :=
  match pool with
  | [] => none
  | (k, h) :: rest => if k = key then some h else KernelPool.find rest key

/-- Modelled from the spec: `getKernelFromPool` of `kernelpool.h`, which is
not among the sources: the stored handle, `nullptr` when the key is absent. -/
def KernelPool.get (pool : KernelPool) (context : cl_context)
    (project_name kernel_name : String) : cl_kernel :=
  (pool.find (context, project_name, kernel_name)).getD nullKernel

/-- Modelled from the spec: `insertKernelToPool` of `kernelpool.h`, which is
not among the sources: "fails if an entry for that exact key already exists;
succeeds otherwise and makes the handle visible to subsequent lookups". -/
def KernelPool.insert (pool : KernelPool) (context : cl_context)
    (project_name kernel_name : String) (kernel : cl_kernel) : Bool × KernelPool :=
  match pool.find (context, project_name, kernel_name) with
  | some _ => (false, pool)
  | none => (true, ((context, project_name, kernel_name), kernel) :: pool)

/-- The environment implements the pool as a map: `pool s` is the pool held
in the world state `s`; lookup returns the stored handle and leaves the pool
alone, insert succeeds exactly when the key is absent, and no other primitive
touches the pool. -/
structure PoolModel (env : Env σ) (pool : σ → KernelPool) : Prop where
  lookup_ret : ∀ s c p n, (env.getKernelFromPool s c p n).1 = (pool s).get c p n
  lookup_pool : ∀ s c p n, pool (env.getKernelFromPool s c p n).2 = pool s
  insert_ret : ∀ s c p n k,
    (env.insertKernelToPool s c p n k).1 = ((pool s).insert c p n k).1
  insert_pool : ∀ s c p n k,
    pool (env.insertKernelToPool s c p n k).2 = ((pool s).insert c p n k).2
  compile_pool : ∀ s f, pool (env.compileOclKernels s f).2 = pool s
  names_pool : ∀ s g, pool (env.getKernelNames s g).2 = pool s
  create_pool : ∀ s g n, pool (env.clCreateKernel s g n).2 = pool s
  setArg_pool : ∀ s k i z v, pool (env.clSetKernelArg s k i z v).2 = pool s
  validate_pool : ∀ s w g l, pool (env.validateNDrange s w g l).2 = pool s
  enqueue_pool : ∀ s f n k w g l, pool (env.enqueueOclKernel s f n k w g l).2 = pool s

/-! ## A scripted device, for concrete runs -/

/-- How the scripted device answers. -/
structure Script where
  /-- What `compileOclKernels` returns. -/
  compileOk : Bool
  /-- What `getKernelNames` enumerates. -/
  names : List String
  /-- The names for which `clCreateKernel` reports an error. -/
  badNames : List String
  /-- Whether `insertKernelToPool` works as the pool model (true) or rejects
  every insert (false). -/
  acceptInserts : Bool
  /-- The argument index at which `clSetKernelArg` reports an error. -/
  badIndex : Option Nat
  /-- What `validateNDrange` returns. -/
  geometryOk : Bool

/-- A device over the pool model: context 1, project `projA`, program 7; the
kernel created for the name at position `i` of the enumeration has the
handle `i + 11`. -/
def scriptedEnv (sc : Script) : Env KernelPool where
  getContext := fun _ _ => 1
  getProjectName := fun _ _ => "projA"
  getProgram := fun _ _ => 7
  getKernelFromPool := fun s c p n => (s.get c p n, s)
  compileOclKernels := fun s _ => (sc.compileOk, s)
  getKernelNames := fun s _ => ((true, sc.names), s)
  clCreateKernel := fun s _ n =>
    if n ∈ sc.badNames then ((nullKernel, -46), s)
    else ((sc.names.indexOf n + 11, CL_SUCCESS), s)
  insertKernelToPool := fun s c p n k =>
    if sc.acceptInserts then s.insert c p n k else (false, s)
  clSetKernelArg := fun s _ i _ _ => (if sc.badIndex = some i then -51 else CL_SUCCESS, s)
  validateNDrange := fun s _ _ _ => (sc.geometryOk, s)
  enqueueOclKernel := fun s _ _ _ _ _ _ => (true, s)

/-- A unit defining `kernelX` and `kernelY`; everything succeeds. -/
def goodScript : Script :=
  { compileOk := true, names := ["kernelX", "kernelY"], badNames := [],
    acceptInserts := true, badIndex := none, geometryOk := true }

/-- The same unit, failing to compile. -/
def uncompilableScript : Script :=
  { goodScript with compileOk := false }

/-- The same unit, with `clCreateKernel` reporting an error for `kernelX`. -/
def failingCreateScript : Script :=
  { goodScript with badNames := ["kernelX"] }

/-- The same unit, with `clCreateKernel` reporting an error for `kernelY`. -/
def failingSecondScript : Script :=
  { goodScript with badNames := ["kernelY"] }

/-- The same unit, on a pool that rejects every insert. -/
def rejectingScript : Script :=
  { goodScript with acceptInserts := false }

/-- A unit that defines `kernelY` only. -/
def otherScript : Script :=
  { goodScript with names := ["kernelY"] }

/-- A pool that holds handle 11 for `kernelX`. -/
def warmPool : KernelPool := [((1, "projA", "kernelX"), 11)]

/-- A pool that holds handle 12 for `kernelY` and nothing for `kernelX`. -/
def halfWarmPool : KernelPool := [((1, "projA", "kernelY"), 12)]

/-- The run `run("kernelX", 1, [1024], [64], buf)` of the scripted device from
the pool `pool`, with one argument of size 8. -/
def exampleRun (sc : Script) (pool : KernelPool) : RunResult KernelPool :=
  runOclKernel (scriptedEnv sc) pool 0 "kernelX" 1 (some [1024]) (some [64]) ⟨8, 5⟩ []

/-! ## Theorems -/

/-! ## Argument binding -/

/-- The shape of every run of `setKernelArg`, from any start index: the calls
are those of `argCalls` for a non-empty list of codes, no longer than the
argument list, all but the last of which are `CL_SUCCESS`; the last one is the
returned code, and it is an error when the list is shorter than the
arguments. -/
theorem setKernelArg_shape (env : Env σ) (kernel : cl_kernel) (rest : List KernelArg) :
    ∀ (INDEX : Nat) (value : KernelArg) (s : σ),
      ∃ (done : List cl_int) (last : cl_int),
        (setKernelArg env kernel INDEX value rest s).trace
            = argCalls kernel INDEX (value :: rest) (done ++ [last]) ∧
          (done ++ [last]).length ≤ (value :: rest).length ∧
          (∀ c ∈ done, c = CL_SUCCESS) ∧
          (setKernelArg env kernel INDEX value rest s).code = last ∧
          ((done ++ [last]).length < (value :: rest).length → last ≠ CL_SUCCESS) := by
  induction rest with
  | nil =>
    intro INDEX value s
    exact ⟨[], (env.clSetKernelArg s kernel INDEX value.size value.value).1,
      by simp [setKernelArg, argCalls]⟩
  | cons r rs ih =>
    intro INDEX value s
    by_cases hc : (env.clSetKernelArg s kernel INDEX value.size value.value).1 = CL_SUCCESS
    · obtain ⟨done, last, ht, hlen, hdone, hcode, hshort⟩ :=
        ih (INDEX + 1) r (env.clSetKernelArg s kernel INDEX value.size value.value).2
      refine ⟨CL_SUCCESS :: done, last, ?_, ?_, ?_, ?_, ?_⟩
      · simp [setKernelArg, hc, ht, argCalls]
      · simpa using hlen
      · intro c hmem
        rcases List.mem_cons.mp hmem with h | h
        · exact h
        · exact hdone c h
      · simp [setKernelArg, hc, hcode]
      · intro hlt
        exact hshort (by simpa using hlt)
    · refine ⟨[], (env.clSetKernelArg s kernel INDEX value.size value.value).1, ?_⟩
      simp [setKernelArg, hc, argCalls]

/-! ## The population loop -/

/-- The shape of every run of the loop of lines 90-108: a sequence of
completed rounds over a prefix of the names, which is either all of them
(and the loop ends with the selected handle) or is followed by one failed
creation (and the function returns). -/
theorem createKernels_shape (env : Env σ) (program : cl_program) (context : cl_context)
    (project_name kernel_name : String) (names : List String) :
    ∀ (kernel : cl_kernel) (s : σ),
      ∃ cs : List Created,
        (names = cs.map Created.name ∧
          (createKernels env program context project_name kernel_name names kernel s).1
            = some (selectKernel kernel_name cs kernel) ∧
          (createKernels env program context project_name kernel_name names kernel s).2.1
            = populationTrace program context project_name cs) ∨
        (∃ n h code tl, names = cs.map Created.name ++ n :: tl ∧ code ≠ CL_SUCCESS ∧
          (createKernels env program context project_name kernel_name names kernel s).1 = none ∧
          (createKernels env program context project_name kernel_name names kernel s).2.1
            = populationTrace program context project_name cs
                ++ [Event.clCreateKernel program n h code]) := by
  induction names with
  | nil =>
    intro kernel s
    exact ⟨[], Or.inl (by simp [createKernels, selectKernel, populationTrace])⟩
  | cons n ns ih =>
    intro kernel s
    by_cases hc : (env.clCreateKernel s program n).1.2 = CL_SUCCESS
    · obtain ⟨cs, h⟩ := ih (if n = kernel_name then (env.clCreateKernel s program n).1.1 else kernel)
        (env.insertKernelToPool (env.clCreateKernel s program n).2 context project_name n
          (env.clCreateKernel s program n).1.1).2
      refine ⟨⟨n, (env.clCreateKernel s program n).1.1,
        (env.insertKernelToPool (env.clCreateKernel s program n).2 context project_name n
          (env.clCreateKernel s program n).1.1).1⟩ :: cs, ?_⟩
      rcases h with ⟨hn, hk, ht⟩ | ⟨m, h, code, tl, hn, hcode, hk, ht⟩
      · left
        refine ⟨by simp [hn], ?_, ?_⟩
        · simp [createKernels, hc, hk, selectKernel]
        · simp [createKernels, hc, ht, populationTrace]
      · right
        refine ⟨m, h, code, tl, by simp [hn], hcode, ?_, ?_⟩
        · simp [createKernels, hc, hk]
        · simp [createKernels, hc, ht, populationTrace]
    · refine ⟨[], Or.inr ⟨n, (env.clCreateKernel s program n).1.1,
        (env.clCreateKernel s program n).1.2, ns, by simp, hc, ?_, ?_⟩⟩
      · simp [createKernels, hc]
      · simp [createKernels, hc, populationTrace]

/-! ## The dispatch tail and the whole call -/

/-- A list of codes that are all `CL_SUCCESS` is a `replicate`. -/
theorem codes_eq_replicate (done : List cl_int) (last : cl_int)
    (hdone : ∀ c ∈ done, c = CL_SUCCESS) (hlast : last = CL_SUCCESS) :
    done ++ [last] = List.replicate (done ++ [last]).length CL_SUCCESS := by
  apply List.eq_replicate_iff.mpr
  refine ⟨rfl, ?_⟩
  intro b hb
  rcases List.mem_append.mp hb with h | h
  · exact hdone b h
  · simpa [hlast] using h

/-- The four ways lines 110-132 can run. -/
theorem dispatchKernel_shape (env : Env σ) (frame_chain : FrameChainPtr)
    (kernel_name_cstr : String) (work_dims : cl_uint)
    (global_work_size local_work_size : WorkSize)
    (value : KernelArg) (rest : List KernelArg) (kernel : cl_kernel) (s : σ) :
    (kernel = nullKernel ∧
      (dispatchKernel env frame_chain kernel_name_cstr work_dims global_work_size
        local_work_size value rest kernel s).trace = [] ∧
      (dispatchKernel env frame_chain kernel_name_cstr work_dims global_work_size
        local_work_size value rest kernel s).exit = Exit.noValidKernel ∧
      (dispatchKernel env frame_chain kernel_name_cstr work_dims global_work_size
        local_work_size value rest kernel s).state = s) ∨
    (kernel ≠ nullKernel ∧
      ((∃ (done : List cl_int) (last : cl_int),
          (∀ c ∈ done, c = CL_SUCCESS) ∧ last ≠ CL_SUCCESS ∧
          (done ++ [last]).length ≤ (value :: rest).length ∧
          (dispatchKernel env frame_chain kernel_name_cstr work_dims global_work_size
            local_work_size value rest kernel s).trace
              = argCalls kernel 0 (value :: rest) (done ++ [last]) ∧
          (dispatchKernel env frame_chain kernel_name_cstr work_dims global_work_size
            local_work_size value rest kernel s).exit = Exit.setKernelArgFailed) ∨
        ((dispatchKernel env frame_chain kernel_name_cstr work_dims global_work_size
            local_work_size value rest kernel s).trace
              = argCalls kernel 0 (value :: rest)
                  (List.replicate (value :: rest).length CL_SUCCESS)
                ++ [Event.validateNDrange work_dims global_work_size local_work_size false] ∧
          (dispatchKernel env frame_chain kernel_name_cstr work_dims global_work_size
            local_work_size value rest kernel s).exit = Exit.invalidNDrange) ∨
        (∃ ok : Bool,
          (dispatchKernel env frame_chain kernel_name_cstr work_dims global_work_size
            local_work_size value rest kernel s).trace
              = argCalls kernel 0 (value :: rest)
                  (List.replicate (value :: rest).length CL_SUCCESS)
                ++ [Event.validateNDrange work_dims global_work_size local_work_size true,
                    Event.enqueueOclKernel frame_chain kernel_name_cstr kernel work_dims
                      global_work_size local_work_size ok] ∧
          (dispatchKernel env frame_chain kernel_name_cstr work_dims global_work_size
            local_work_size value rest kernel s).exit
              = if ok = false then Exit.enqueueFailed else Exit.completed))) := by
  by_cases hk : kernel = nullKernel
  · left
    simp [dispatchKernel, hk]
  · right
    refine ⟨hk, ?_⟩
    obtain ⟨done, last, ht, hlen, hdone, hcode, hshort⟩ :=
      setKernelArg_shape env kernel rest 0 value s
    by_cases hl : last = CL_SUCCESS
    · have hfull : (done ++ [last]).length = (value :: rest).length := by
        rcases Nat.lt_or_ge (done ++ [last]).length (value :: rest).length with h | h
        · exact absurd hl (hshort h)
        · exact Nat.le_antisymm hlen h
      have hrep := codes_eq_replicate done last hdone hl
      rw [hfull] at hrep
      rw [hrep] at ht
      right
      by_cases hv : (env.validateNDrange (setKernelArg env kernel 0 value rest s).state
          work_dims global_work_size local_work_size).1 = false
      · left
        simp [dispatchKernel, hk, hcode, hl, hv, ht]
      · right
        simp only [Bool.not_eq_false] at hv
        refine ⟨(env.enqueueOclKernel (env.validateNDrange
          (setKernelArg env kernel 0 value rest s).state work_dims global_work_size
          local_work_size).2 frame_chain kernel_name_cstr kernel work_dims global_work_size
          local_work_size).1, ?_⟩
        simp [dispatchKernel, hk, hcode, hl, hv, ht]
    · left
      refine ⟨done, last, hdone, hl, hlen, ?_, ?_⟩
      · simp [dispatchKernel, hk, hcode, hl, ht]
      · simp [dispatchKernel, hk, hcode, hl]

/-- A call that hits the cache: the lookup, then lines 110-132 on the
handle the lookup returned. -/
theorem runOclKernel_hit (env : Env σ) (s : σ) (frame_chain : FrameChainPtr)
    (kernel_name : String) (work_dims : cl_uint) (global_work_size local_work_size : WorkSize)
    (value : KernelArg) (rest : List KernelArg)
    (hhit : ¬ CacheMiss env s frame_chain kernel_name) :
    (runOclKernel env s frame_chain kernel_name work_dims global_work_size local_work_size
        value rest).trace
      = Event.getKernelFromPool (env.getContext s frame_chain)
          (env.getProjectName s frame_chain) kernel_name
          (poolLookup env s frame_chain kernel_name).1 ::
        (dispatchKernel env frame_chain kernel_name work_dims global_work_size
          local_work_size value rest (poolLookup env s frame_chain kernel_name).1
          (poolLookup env s frame_chain kernel_name).2).trace ∧
    (runOclKernel env s frame_chain kernel_name work_dims global_work_size local_work_size
        value rest).exit
      = (dispatchKernel env frame_chain kernel_name work_dims global_work_size
          local_work_size value rest (poolLookup env s frame_chain kernel_name).1
          (poolLookup env s frame_chain kernel_name).2).exit ∧
    (runOclKernel env s frame_chain kernel_name work_dims global_work_size local_work_size
        value rest).state
      = (dispatchKernel env frame_chain kernel_name work_dims global_work_size
          local_work_size value rest (poolLookup env s frame_chain kernel_name).1
          (poolLookup env s frame_chain kernel_name).2).state := by
  unfold CacheMiss poolLookup at hhit
  simp [runOclKernel, poolLookup, hhit]

/-- A call that misses the cache and whose compilation fails: two calls. -/
theorem runOclKernel_compileFailed (env : Env σ) (s : σ) (frame_chain : FrameChainPtr)
    (kernel_name : String) (work_dims : cl_uint) (global_work_size local_work_size : WorkSize)
    (value : KernelArg) (rest : List KernelArg)
    (hmiss : CacheMiss env s frame_chain kernel_name)
    (hfail : ¬ CompileSucceeds env s frame_chain kernel_name) :
    (runOclKernel env s frame_chain kernel_name work_dims global_work_size local_work_size
        value rest).trace
      = [Event.getKernelFromPool (env.getContext s frame_chain)
          (env.getProjectName s frame_chain) kernel_name nullKernel,
         Event.compileOclKernels frame_chain false] ∧
    (runOclKernel env s frame_chain kernel_name work_dims global_work_size local_work_size
        value rest).exit = Exit.compileFailed ∧
    (runOclKernel env s frame_chain kernel_name work_dims global_work_size local_work_size
        value rest).state = (compiled env s frame_chain kernel_name).2 := by
  unfold CacheMiss poolLookup at hmiss
  unfold CompileSucceeds compiled poolLookup at hfail
  simp only [Bool.not_eq_true] at hfail
  simp [runOclKernel, compiled, poolLookup, hmiss, hfail]

/-- A call that misses the cache and compiles successfully: the three
opening calls, a sequence of completed rounds of the loop, and then either
lines 110-132 on the selected handle (all names done) or one failed creation
and nothing else. -/
theorem runOclKernel_populated (env : Env σ) (s : σ) (frame_chain : FrameChainPtr)
    (kernel_name : String) (work_dims : cl_uint) (global_work_size local_work_size : WorkSize)
    (value : KernelArg) (rest : List KernelArg)
    (hmiss : CacheMiss env s frame_chain kernel_name)
    (hcomp : CompileSucceeds env s frame_chain kernel_name) :
    ∃ cs : List Created,
      (enumeratedNames env s frame_chain kernel_name = cs.map Created.name ∧
        (runOclKernel env s frame_chain kernel_name work_dims global_work_size
            local_work_size value rest).trace
          = missOpening env s frame_chain kernel_name
            ++ populationTrace (compiledProgram env s frame_chain kernel_name)
                (env.getContext s frame_chain) (env.getProjectName s frame_chain) cs
            ++ (dispatchKernel env frame_chain kernel_name work_dims global_work_size
                local_work_size value rest (selectKernel kernel_name cs nullKernel)
                (population env s frame_chain kernel_name).2.2).trace ∧
        (runOclKernel env s frame_chain kernel_name work_dims global_work_size
            local_work_size value rest).exit
          = (dispatchKernel env frame_chain kernel_name work_dims global_work_size
                local_work_size value rest (selectKernel kernel_name cs nullKernel)
                (population env s frame_chain kernel_name).2.2).exit ∧
        (runOclKernel env s frame_chain kernel_name work_dims global_work_size
            local_work_size value rest).state
          = (dispatchKernel env frame_chain kernel_name work_dims global_work_size
                local_work_size value rest (selectKernel kernel_name cs nullKernel)
                (population env s frame_chain kernel_name).2.2).state) ∨
      (∃ n h code tl,
        enumeratedNames env s frame_chain kernel_name = cs.map Created.name ++ n :: tl ∧
        code ≠ CL_SUCCESS ∧
        (runOclKernel env s frame_chain kernel_name work_dims global_work_size
            local_work_size value rest).trace
          = missOpening env s frame_chain kernel_name
            ++ populationTrace (compiledProgram env s frame_chain kernel_name)
                (env.getContext s frame_chain) (env.getProjectName s frame_chain) cs
            ++ [Event.clCreateKernel (compiledProgram env s frame_chain kernel_name) n h code] ∧
        (runOclKernel env s frame_chain kernel_name work_dims global_work_size
            local_work_size value rest).exit = Exit.createKernelFailed ∧
        (runOclKernel env s frame_chain kernel_name work_dims global_work_size
            local_work_size value rest).state
          = (population env s frame_chain kernel_name).2.2) := by
  obtain ⟨cs, h⟩ := createKernels_shape env (compiledProgram env s frame_chain kernel_name)
    (env.getContext s frame_chain) (env.getProjectName s frame_chain) kernel_name
    (enumeratedNames env s frame_chain kernel_name) nullKernel
    (enumerated env s frame_chain kernel_name).2
  have hmiss1 := hmiss
  have hcomp1 := hcomp
  unfold CacheMiss poolLookup at hmiss1
  unfold CompileSucceeds compiled poolLookup at hcomp1
  refine ⟨cs, ?_⟩
  rcases h with ⟨hn, hk, ht⟩ | ⟨n, h, code, tl, hn, hcode, hk, ht⟩
  · left
    unfold enumeratedNames enumerated compiledProgram compiled poolLookup at hk ht
    refine ⟨hn, ?_, ?_, ?_⟩ <;>
      simp [runOclKernel, population, missOpening, enumeratedNames, enumerated,
        compiledProgram, compiled, poolLookup, hmiss1, hcomp1, hk, ht]
  · right
    unfold enumeratedNames enumerated compiledProgram compiled poolLookup at hk ht
    refine ⟨n, h, code, tl, hn, hcode, ?_, ?_, ?_⟩ <;>
      simp [runOclKernel, population, missOpening, enumeratedNames, enumerated,
        compiledProgram, compiled, poolLookup, hmiss1, hcomp1, hk, ht]

/-! ## Membership in the pieces of a trace -/

/-- Every call of `argCalls` is a binding call on the given handle. -/
theorem mem_argCalls (kernel : cl_kernel) (args : List KernelArg) :
    ∀ (i : Nat) (codes : List cl_int) (e : Event), e ∈ argCalls kernel i args codes →
      ∃ j z v c, e = Event.clSetKernelArg kernel j z v c := by
  induction args with
  | nil => intro i codes e h; simp [argCalls] at h
  | cons a as ih =>
    intro i codes e h
    cases codes with
    | nil => simp [argCalls] at h
    | cons c cs =>
      simp only [argCalls, List.mem_cons] at h
      rcases h with h | h
      · exact ⟨i, a.size, a.value, c, h⟩
      · exact ih (i + 1) cs e h

/-- The calls of a sequence of completed rounds are the creation and the
insert of each round. -/
theorem mem_populationTrace (program : cl_program) (context : cl_context)
    (project_name : String) (e : Event) :
    ∀ cs : List Created, e ∈ populationTrace program context project_name cs ↔
      ∃ c ∈ cs, e = Event.clCreateKernel program c.name c.kernel CL_SUCCESS ∨
        e = Event.insertKernelToPool context project_name c.name c.kernel c.inserted := by
  intro cs
  induction cs with
  | nil => simp [populationTrace]
  | cons c cs ih =>
    simp only [populationTrace, List.mem_cons, ih]
    constructor
    · rintro (h | h | ⟨d, hd, h⟩)
      · exact ⟨c, Or.inl rfl, Or.inl h⟩
      · exact ⟨c, Or.inl rfl, Or.inr h⟩
      · exact ⟨d, Or.inr hd, h⟩
    · rintro ⟨d, hd | hd, h⟩
      · subst hd
        rcases h with h | h
        · exact Or.inl h
        · exact Or.inr (Or.inl h)
      · exact Or.inr (Or.inr ⟨d, hd, h⟩)

/-- Lines 110-132 call nothing but binding, validation and enqueue, the
first and the last on the handle they were entered with, the last two with
the caller's geometry. -/
theorem mem_dispatchKernel (env : Env σ) (frame_chain : FrameChainPtr)
    (kernel_name_cstr : String) (work_dims : cl_uint)
    (global_work_size local_work_size : WorkSize)
    (value : KernelArg) (rest : List KernelArg) (kernel : cl_kernel) (s : σ) (e : Event)
    (he : e ∈ (dispatchKernel env frame_chain kernel_name_cstr work_dims global_work_size
      local_work_size value rest kernel s).trace) :
    (∃ j z v c, e = Event.clSetKernelArg kernel j z v c) ∨
      (∃ b, e = Event.validateNDrange work_dims global_work_size local_work_size b) ∨
      (∃ ok, e = Event.enqueueOclKernel frame_chain kernel_name_cstr kernel work_dims
        global_work_size local_work_size ok) := by
  rcases dispatchKernel_shape env frame_chain kernel_name_cstr work_dims global_work_size
      local_work_size value rest kernel s with
    ⟨-, ht, -, -⟩ | ⟨-, ⟨done, last, -, -, -, ht, -⟩ | ⟨ht, -⟩ | ⟨ok, ht, -⟩⟩
  · rw [ht] at he
    simp at he
  · rw [ht] at he
    exact Or.inl (mem_argCalls kernel _ _ _ e he)
  · rw [ht] at he
    rcases List.mem_append.mp he with h | h
    · exact Or.inl (mem_argCalls kernel _ _ _ e h)
    · exact Or.inr (Or.inl ⟨false, by simpa using h⟩)
  · rw [ht] at he
    rcases List.mem_append.mp he with h | h
    · exact Or.inl (mem_argCalls kernel _ _ _ e h)
    · simp only [List.mem_cons, List.mem_singleton, List.not_mem_nil, or_false] at h
      rcases h with h | h
      · exact Or.inr (Or.inl ⟨true, h⟩)
      · exact Or.inr (Or.inr ⟨ok, h⟩)

/-- The first call of `setKernelArg` binds the first argument at its start
index. -/
theorem setKernelArg_first (env : Env σ) (kernel : cl_kernel) (INDEX : Nat)
    (value : KernelArg) (rest : List KernelArg) (s : σ) :
    ∃ c tl, (setKernelArg env kernel INDEX value rest s).trace
      = Event.clSetKernelArg kernel INDEX value.size value.value c :: tl := by
  cases rest with
  | nil =>
    exact ⟨(env.clSetKernelArg s kernel INDEX value.size value.value).1, [],
      by simp [setKernelArg]⟩
  | cons r rs =>
    by_cases hc : (env.clSetKernelArg s kernel INDEX value.size value.value).1 = CL_SUCCESS
    · exact ⟨(env.clSetKernelArg s kernel INDEX value.size value.value).1,
        (setKernelArg env kernel (INDEX + 1) r rs
          (env.clSetKernelArg s kernel INDEX value.size value.value).2).trace,
        by simp [setKernelArg, hc]⟩
    · exact ⟨(env.clSetKernelArg s kernel INDEX value.size value.value).1, [],
        by simp [setKernelArg, hc]⟩

/-- Entered with a non-null handle, lines 110-132 start by binding the first
argument at index 0 on that handle. -/
theorem dispatchKernel_first (env : Env σ) (frame_chain : FrameChainPtr)
    (kernel_name_cstr : String) (work_dims : cl_uint)
    (global_work_size local_work_size : WorkSize)
    (value : KernelArg) (rest : List KernelArg) (kernel : cl_kernel) (s : σ)
    (hk : kernel ≠ nullKernel) :
    ∃ c tl, (dispatchKernel env frame_chain kernel_name_cstr work_dims global_work_size
      local_work_size value rest kernel s).trace
        = Event.clSetKernelArg kernel 0 value.size value.value c :: tl := by
  obtain ⟨c, tl, h⟩ := setKernelArg_first env kernel 0 value rest s
  by_cases hcode : (setKernelArg env kernel 0 value rest s).code = CL_SUCCESS
  · by_cases hv : (env.validateNDrange (setKernelArg env kernel 0 value rest s).state
        work_dims global_work_size local_work_size).1 = false
    · exact ⟨c, tl ++ [Event.validateNDrange work_dims global_work_size local_work_size
        false], by simp [dispatchKernel, hk, hcode, hv, h]⟩
    · simp only [Bool.not_eq_false] at hv
      exact ⟨c, tl ++ [Event.validateNDrange work_dims global_work_size local_work_size
        true, Event.enqueueOclKernel frame_chain kernel_name_cstr kernel work_dims
          global_work_size local_work_size (env.enqueueOclKernel (env.validateNDrange
            (setKernelArg env kernel 0 value rest s).state work_dims global_work_size
            local_work_size).2 frame_chain kernel_name_cstr kernel work_dims
            global_work_size local_work_size).1],
        by simp [dispatchKernel, hk, hcode, hv, h]⟩
  · exact ⟨c, tl, by simp [dispatchKernel, hk, hcode, h]⟩

/-- There are as many calls in `argCalls` as codes, when there are at least
as many arguments. -/
theorem argCalls_length (kernel : cl_kernel) (args : List KernelArg) :
    ∀ (i : Nat) (codes : List cl_int), codes.length ≤ args.length →
      (argCalls kernel i args codes).length = codes.length := by
  induction args with
  | nil =>
    intro i codes h
    cases codes with
    | nil => rfl
    | cons c cs => simp at h
  | cons a as ih =>
    intro i codes h
    cases codes with
    | nil => rfl
    | cons c cs =>
      simp only [argCalls, List.length_cons, Nat.add_right_cancel_iff]
      exact ih (i + 1) cs (by simpa using h)

/-! ## Counting the calls of one primitive -/

/-- The calls of a primitive in a concatenation. -/
theorem calls_append (k : Kind) (a b : List Event) :
    calls k (a ++ b) = calls k a ++ calls k b := by
  simp [calls]

/-- A trace none of whose events is a call of `k` has no call of `k`. -/
theorem calls_eq_nil (k : Kind) (t : List Event) (h : ∀ e ∈ t, e.kind ≠ k) :
    calls k t = [] := by
  simp only [calls, List.filter_eq_nil_iff, decide_eq_true_eq]
  exact h

/-- A trace all of whose events are calls of `k` is its own list of calls. -/
theorem calls_eq_self (k : Kind) (t : List Event) (h : ∀ e ∈ t, e.kind = k) :
    calls k t = t := by
  simp only [calls, List.filter_eq_self, decide_eq_true_eq]
  exact h

/-- An event of kind `k` at the head of a trace is its first call of `k`. -/
theorem calls_cons_of_kind (k : Kind) (e : Event) (t : List Event) (h : e.kind = k) :
    calls k (e :: t) = e :: calls k t := by
  unfold calls
  exact List.filter_cons_of_pos (by simpa using h)

/-- The binding calls of `argCalls` are all of it. -/
theorem calls_setArg_argCalls (kernel : cl_kernel) (i : Nat) (args : List KernelArg)
    (codes : List cl_int) :
    calls Kind.setArg (argCalls kernel i args codes) = argCalls kernel i args codes := by
  apply calls_eq_self
  intro e he
  obtain ⟨j, z, v, c, rfl⟩ := mem_argCalls kernel args i codes e he
  rfl

/-- There is no call of another primitive in `argCalls`. -/
theorem calls_other_argCalls (k : Kind) (hk : k ≠ Kind.setArg) (kernel : cl_kernel) (i : Nat)
    (args : List KernelArg) (codes : List cl_int) :
    calls k (argCalls kernel i args codes) = [] := by
  apply calls_eq_nil
  intro e he
  obtain ⟨j, z, v, c, rfl⟩ := mem_argCalls kernel args i codes e he
  exact fun h => hk h.symm

/-- The insert calls of a sequence of completed rounds: one per round, in
order, each with the handle created in that round. -/
theorem calls_insert_populationTrace (program : cl_program) (context : cl_context)
    (project_name : String) (cs : List Created) :
    calls Kind.insert (populationTrace program context project_name cs)
      = cs.map (Created.insertEvent context project_name) := by
  induction cs with
  | nil => rfl
  | cons c cs ih =>
    have h1 : (Event.clCreateKernel program c.name c.kernel CL_SUCCESS).kind ≠ Kind.insert := by
      simp [Event.kind]
    have h2 : (Event.insertKernelToPool context project_name c.name c.kernel c.inserted).kind
        = Kind.insert := rfl
    simp only [calls] at ih
    simp only [calls, populationTrace, List.map_cons, Created.insertEvent]
    rw [List.filter_cons_of_neg (by simpa using h1), List.filter_cons_of_pos (by simpa using h2),
      ih]

/-- No creation fails in a sequence of completed rounds. -/
theorem allCreated_populationTrace (program : cl_program) (context : cl_context)
    (project_name : String) (cs : List Created) :
    AllCreated (populationTrace program context project_name cs) := by
  intro e he
  obtain ⟨c, -, rfl | rfl⟩ := (mem_populationTrace program context project_name e cs).mp he
  · simp [Event.createFailed]
  · rfl

/-- No creation fails in lines 110-132, which create nothing. -/
theorem allCreated_dispatchKernel (env : Env σ) (frame_chain : FrameChainPtr)
    (kernel_name_cstr : String) (work_dims : cl_uint)
    (global_work_size local_work_size : WorkSize)
    (value : KernelArg) (rest : List KernelArg) (kernel : cl_kernel) (s : σ) :
    AllCreated (dispatchKernel env frame_chain kernel_name_cstr work_dims global_work_size
      local_work_size value rest kernel s).trace := by
  intro e he
  rcases mem_dispatchKernel env frame_chain kernel_name_cstr work_dims global_work_size
    local_work_size value rest kernel s e he with
    ⟨j, z, v, c, rfl⟩ | ⟨b, rfl⟩ | ⟨ok, rfl⟩ <;> rfl

/-! ## Environments that implement the pool model -/

/-- An insert under an absent key succeeds and stores the handle. -/
theorem KernelPool.insert_of_absent (pool : KernelPool) (context : cl_context)
    (project_name kernel_name : String) (kernel : cl_kernel)
    (h : pool.find (context, project_name, kernel_name) = none) :
    pool.insert context project_name kernel_name kernel
      = (true, ((context, project_name, kernel_name), kernel) :: pool) := by
  simp [KernelPool.insert, h]

/-- The handle stored by the entry at the head of the pool. -/
theorem KernelPool.find_cons_self (pool : KernelPool) (key : PoolKey) (kernel : cl_kernel) :
    KernelPool.find ((key, kernel) :: pool) key = some kernel := by
  simp [KernelPool.find]

/-- An insert under one name leaves the entry of another name as it was. -/
theorem KernelPool.find_insert_other (pool : KernelPool) (context : cl_context)
    (project_name n kernel_name : String) (kernel : cl_kernel) (hne : n ≠ kernel_name) :
    (pool.insert context project_name n kernel).2.find (context, project_name, kernel_name)
      = pool.find (context, project_name, kernel_name) := by
  unfold KernelPool.insert
  cases pool.find (context, project_name, n) with
  | some _ => rfl
  | none => simp [KernelPool.find, hne]

/-- Argument binding leaves the pool as it was. -/
theorem setKernelArg_pool (env : Env σ) (pool : σ → KernelPool) (hm : PoolModel env pool)
    (kernel : cl_kernel) (rest : List KernelArg) :
    ∀ (i : Nat) (value : KernelArg) (s : σ),
      pool (setKernelArg env kernel i value rest s).state = pool s := by
  induction rest with
  | nil =>
    intro i value s
    simp [setKernelArg, hm.setArg_pool]
  | cons r rs ih =>
    intro i value s
    by_cases hc : (env.clSetKernelArg s kernel i value.size value.value).1 = CL_SUCCESS
    · simp [setKernelArg, hc, ih, hm.setArg_pool]
    · simp [setKernelArg, hc, hm.setArg_pool]

/-- Lines 110-132 leave the pool as it was. -/
theorem dispatchKernel_pool (env : Env σ) (pool : σ → KernelPool) (hm : PoolModel env pool)
    (frame_chain : FrameChainPtr) (kernel_name_cstr : String) (work_dims : cl_uint)
    (global_work_size local_work_size : WorkSize)
    (value : KernelArg) (rest : List KernelArg) (kernel : cl_kernel) (s : σ) :
    pool (dispatchKernel env frame_chain kernel_name_cstr work_dims global_work_size
      local_work_size value rest kernel s).state = pool s := by
  unfold dispatchKernel
  by_cases hk : kernel = nullKernel
  · simp [hk]
  · by_cases hc : (setKernelArg env kernel 0 value rest s).code = CL_SUCCESS
    · by_cases hv : (env.validateNDrange (setKernelArg env kernel 0 value rest s).state
          work_dims global_work_size local_work_size).1 = false
      · simp [hk, hc, hv, hm.validate_pool, setKernelArg_pool env pool hm]
      · simp [hk, hc, hv, hm.validate_pool, hm.enqueue_pool, setKernelArg_pool env pool hm]
    · simp [hk, hc, setKernelArg_pool env pool hm]

/-- The scripted device implements the pool model when it accepts inserts. -/
theorem scriptedEnv_poolModel (sc : Script) (h : sc.acceptInserts = true) :
    PoolModel (scriptedEnv sc) id where
  lookup_ret := fun _ _ _ _ => rfl
  lookup_pool := fun _ _ _ _ => rfl
  insert_ret := fun _ _ _ _ _ => by simp [scriptedEnv, h]
  insert_pool := fun _ _ _ _ _ => by simp [scriptedEnv, h]
  compile_pool := fun _ _ => rfl
  names_pool := fun _ _ => rfl
  create_pool := fun _ _ n => by
    by_cases hb : n ∈ sc.badNames <;> simp [scriptedEnv, hb]
  setArg_pool := fun _ _ _ _ _ => rfl
  validate_pool := fun _ _ _ _ => rfl
  enqueue_pool := fun _ _ _ _ _ _ _ => rfl

/-! ## C1: argument binding -/

/-- C1. `setKernelArg<0>` on a non-empty argument list `value :: rest` calls
`clSetKernelArg` on the indices 0, 1, 2, ... in increasing order, one call per
argument with that argument's size and value (`argCalls`), at least once and
at most once per argument.  A call that returns a code other than
`CL_SUCCESS` is the last call made, and its code is what `setKernelArg`
returns; if every call returns `CL_SUCCESS`, there are exactly as many calls
as arguments and `CL_SUCCESS` is returned. -/
theorem setKernelArg_sequential (env : Env σ) (kernel : cl_kernel) (value : KernelArg)
    (rest : List KernelArg) (s : σ) :
    ∃ codes : List cl_int,
      (setKernelArg env kernel 0 value rest s).trace
          = argCalls kernel 0 (value :: rest) codes ∧
        (setKernelArg env kernel 0 value rest s).trace.length = codes.length ∧
        1 ≤ codes.length ∧ codes.length ≤ (value :: rest).length ∧
        (∀ (k : Nat) (c : cl_int), codes[k]? = some c → c ≠ CL_SUCCESS →
          (∀ j < k, codes[j]? = some CL_SUCCESS) ∧ codes.length = k + 1 ∧
            (setKernelArg env kernel 0 value rest s).code = c) ∧
        ((∀ c ∈ codes, c = CL_SUCCESS) →
          codes.length = (value :: rest).length ∧
            (setKernelArg env kernel 0 value rest s).code = CL_SUCCESS) := by
  obtain ⟨done, last, ht, hlen, hdone, hcode, hshort⟩ :=
    setKernelArg_shape env kernel rest 0 value s
  refine ⟨done ++ [last], ht, ?_, by simp, hlen, ?_, ?_⟩
  · rw [ht]
    exact argCalls_length kernel (value :: rest) 0 (done ++ [last]) hlen
  · intro k c hk hc
    have hklt : k < (done ++ [last]).length := by
      rcases Nat.lt_or_ge k (done ++ [last]).length with h | h
      · exact h
      · rw [List.getElem?_eq_none h] at hk
        cases hk
    have hkd : ¬ k < done.length := by
      intro h
      rw [List.getElem?_append_left h] at hk
      exact hc (hdone c (List.getElem?_mem hk))
    have hk_eq : k = done.length := by
      simp only [List.length_append, List.length_singleton] at hklt
      omega
    subst hk_eq
    refine ⟨?_, by simp, ?_⟩
    · intro j hj
      rw [List.getElem?_append_left hj, List.getElem?_eq_getElem hj]
      exact congrArg some (hdone _ (List.getElem_mem hj))
    · simp at hk
      rw [hcode, hk]
  · intro hall
    have hl : last = CL_SUCCESS := hall last (by simp)
    refine ⟨?_, by rw [hcode, hl]⟩
    rcases Nat.lt_or_ge (done ++ [last]).length (value :: rest).length with h | h
    · exact absurd hl (hshort h)
    · exact Nat.le_antisymm hlen h

/-! ## C3: cache hit -/

/-- What a call that hits the cache does: only the lookup and calls of
binding, validation and enqueue; binding starts at index 0 on the handle the
lookup returned, and no other handle is bound or enqueued. -/
theorem hit_facts (env : Env σ) (s : σ) (frame_chain : FrameChainPtr)
    (kernel_name : String) (work_dims : cl_uint) (global_work_size local_work_size : WorkSize)
    (value : KernelArg) (rest : List KernelArg)
    (hhit : ¬ CacheMiss env s frame_chain kernel_name) :
    (∀ e ∈ (runOclKernel env s frame_chain kernel_name work_dims global_work_size
        local_work_size value rest).trace,
      e.kind ≠ Kind.compile ∧ e.kind ≠ Kind.names ∧ e.kind ≠ Kind.create ∧
        e.kind ≠ Kind.insert) ∧
    calls Kind.lookup (runOclKernel env s frame_chain kernel_name work_dims global_work_size
        local_work_size value rest).trace
      = [Event.getKernelFromPool (env.getContext s frame_chain)
          (env.getProjectName s frame_chain) kernel_name
          (poolLookup env s frame_chain kernel_name).1] ∧
    (∃ c, Event.clSetKernelArg (poolLookup env s frame_chain kernel_name).1 0 value.size
        value.value c
      ∈ (runOclKernel env s frame_chain kernel_name work_dims global_work_size
        local_work_size value rest).trace) ∧
    (∀ e ∈ (runOclKernel env s frame_chain kernel_name work_dims global_work_size
        local_work_size value rest).trace,
      ∀ k, e.usedKernel = some k → k = (poolLookup env s frame_chain kernel_name).1) := by
  obtain ⟨ht, -, -⟩ := runOclKernel_hit env s frame_chain kernel_name work_dims
    global_work_size local_work_size value rest hhit
  rw [ht]
  refine ⟨?_, ?_, ?_, ?_⟩
  · intro e he
    rcases List.mem_cons.mp he with rfl | he
    · simp [Event.kind]
    · rcases mem_dispatchKernel env frame_chain kernel_name work_dims global_work_size
        local_work_size value rest _ _ e he with
        ⟨j, z, v, c, rfl⟩ | ⟨b, rfl⟩ | ⟨ok, rfl⟩ <;> simp [Event.kind]
  · have hd : calls Kind.lookup (dispatchKernel env frame_chain kernel_name work_dims
        global_work_size local_work_size value rest (poolLookup env s frame_chain kernel_name).1
        (poolLookup env s frame_chain kernel_name).2).trace = [] := by
      apply calls_eq_nil
      intro e he
      rcases mem_dispatchKernel env frame_chain kernel_name work_dims global_work_size
        local_work_size value rest _ _ e he with
        ⟨j, z, v, c, rfl⟩ | ⟨b, rfl⟩ | ⟨ok, rfl⟩ <;> simp [Event.kind]
    rw [calls_cons_of_kind Kind.lookup (Event.getKernelFromPool (env.getContext s frame_chain)
      (env.getProjectName s frame_chain) kernel_name
      (poolLookup env s frame_chain kernel_name).1) _ rfl, hd]
  · obtain ⟨c, tl, h⟩ := dispatchKernel_first env frame_chain kernel_name work_dims
      global_work_size local_work_size value rest (poolLookup env s frame_chain kernel_name).1
      (poolLookup env s frame_chain kernel_name).2 hhit
    exact ⟨c, by rw [h]; simp⟩
  · intro e he k hk
    rcases List.mem_cons.mp he with rfl | he
    · simp [Event.usedKernel] at hk
    · rcases mem_dispatchKernel env frame_chain kernel_name work_dims global_work_size
        local_work_size value rest _ _ e he with
        ⟨j, z, v, c, rfl⟩ | ⟨b, rfl⟩ | ⟨ok, rfl⟩ <;> simp [Event.usedKernel] at hk <;>
        exact hk.symm

/-- C3. Cache hit: when `getKernelFromPool` returns a non-null handle for
(context, project name, kernel name), the call invokes none of
`compileOclKernels`, `getKernelNames`, `clCreateKernel`, `insertKernelToPool`,
looks the pool up exactly once, starts argument binding at index 0 on the
handle the lookup returned, and every handle passed to `clSetKernelArg` or
`enqueueOclKernel` is that handle.  In an environment that implements the
pool model, the pool after the call is the pool before it. -/
theorem runOclKernel_cache_hit (env : Env σ) (s : σ) (frame_chain : FrameChainPtr)
    (kernel_name : String) (work_dims : cl_uint) (global_work_size local_work_size : WorkSize)
    (value : KernelArg) (rest : List KernelArg)
    (hhit : (env.getKernelFromPool s (env.getContext s frame_chain)
      (env.getProjectName s frame_chain) kernel_name).1 ≠ nullKernel) :
    (∀ e ∈ (runOclKernel env s frame_chain kernel_name work_dims global_work_size
        local_work_size value rest).trace,
      e.kind ≠ Kind.compile ∧ e.kind ≠ Kind.names ∧ e.kind ≠ Kind.create ∧
        e.kind ≠ Kind.insert) ∧
    calls Kind.lookup (runOclKernel env s frame_chain kernel_name work_dims global_work_size
        local_work_size value rest).trace
      = [Event.getKernelFromPool (env.getContext s frame_chain)
          (env.getProjectName s frame_chain) kernel_name
          (env.getKernelFromPool s (env.getContext s frame_chain)
            (env.getProjectName s frame_chain) kernel_name).1] ∧
    (∃ c, Event.clSetKernelArg (env.getKernelFromPool s (env.getContext s frame_chain)
        (env.getProjectName s frame_chain) kernel_name).1 0 value.size value.value c
      ∈ (runOclKernel env s frame_chain kernel_name work_dims global_work_size
        local_work_size value rest).trace) ∧
    (∀ e ∈ (runOclKernel env s frame_chain kernel_name work_dims global_work_size
        local_work_size value rest).trace,
      ∀ k, e.usedKernel = some k →
        k = (env.getKernelFromPool s (env.getContext s frame_chain)
          (env.getProjectName s frame_chain) kernel_name).1) ∧
    (∀ pool : σ → KernelPool, PoolModel env pool →
      pool (runOclKernel env s frame_chain kernel_name work_dims global_work_size
        local_work_size value rest).state = pool s) := by
  refine ⟨(hit_facts env s frame_chain kernel_name work_dims global_work_size
      local_work_size value rest hhit).1,
    (hit_facts env s frame_chain kernel_name work_dims global_work_size
      local_work_size value rest hhit).2.1,
    (hit_facts env s frame_chain kernel_name work_dims global_work_size
      local_work_size value rest hhit).2.2.1,
    (hit_facts env s frame_chain kernel_name work_dims global_work_size
      local_work_size value rest hhit).2.2.2, ?_⟩
  intro pool hm
  obtain ⟨-, -, hs⟩ := runOclKernel_hit env s frame_chain kernel_name work_dims
    global_work_size local_work_size value rest hhit
  rw [hs, dispatchKernel_pool env pool hm]
  exact hm.lookup_pool s _ _ _

/-- C3 at a concrete call: the pool already holds handle 11 for `kernelX`. -/
theorem runOclKernel_cache_hit_witness :
    ((scriptedEnv goodScript).getKernelFromPool warmPool
        ((scriptedEnv goodScript).getContext warmPool 0)
        ((scriptedEnv goodScript).getProjectName warmPool 0)
        "kernelX").1 ≠ nullKernel ∧
      calls Kind.lookup (exampleRun goodScript warmPool).trace
        = [Event.getKernelFromPool 1 "projA" "kernelX" 11] ∧
      (exampleRun goodScript warmPool).state = warmPool :=
  ⟨by decide,
    (runOclKernel_cache_hit (scriptedEnv goodScript) warmPool 0
      "kernelX" 1 (some [1024]) (some [64]) ⟨8, 5⟩ [] (by decide)).2.1,
    (runOclKernel_cache_hit (scriptedEnv goodScript) warmPool 0
      "kernelX" 1 (some [1024]) (some [64]) ⟨8, 5⟩ [] (by decide)).2.2.2.2 id
      (scriptedEnv_poolModel goodScript rfl)⟩

/-! ## C5: compiler failure -/

/-- C5. Compiler failure is atomic: when the lookup misses and
`compileOclKernels` returns false, the call makes exactly two calls, the
lookup and the compilation, and returns through line 83: none of
`getKernelNames`, `clCreateKernel`, `insertKernelToPool`, `clSetKernelArg`,
`validateNDrange`, `enqueueOclKernel` is invoked, and the world state is the
one the compilation call left.  In an environment that implements the pool
model, the pool after the call is the pool before it. -/
theorem runOclKernel_compile_failure (env : Env σ) (s : σ) (frame_chain : FrameChainPtr)
    (kernel_name : String) (work_dims : cl_uint) (global_work_size local_work_size : WorkSize)
    (value : KernelArg) (rest : List KernelArg)
    (hmiss : CacheMiss env s frame_chain kernel_name)
    (hfail : (compiled env s frame_chain kernel_name).1 = false) :
    (runOclKernel env s frame_chain kernel_name work_dims global_work_size local_work_size
        value rest).trace
      = [Event.getKernelFromPool (env.getContext s frame_chain)
          (env.getProjectName s frame_chain) kernel_name nullKernel,
         Event.compileOclKernels frame_chain false] ∧
    (∀ e ∈ (runOclKernel env s frame_chain kernel_name work_dims global_work_size
        local_work_size value rest).trace,
      e.kind ≠ Kind.names ∧ e.kind ≠ Kind.create ∧ e.kind ≠ Kind.insert ∧
        e.kind ≠ Kind.setArg ∧ e.kind ≠ Kind.validate ∧ e.kind ≠ Kind.enqueue) ∧
    (runOclKernel env s frame_chain kernel_name work_dims global_work_size local_work_size
        value rest).exit = Exit.compileFailed ∧
    (runOclKernel env s frame_chain kernel_name work_dims global_work_size local_work_size
        value rest).state
      = (env.compileOclKernels (env.getKernelFromPool s (env.getContext s frame_chain)
          (env.getProjectName s frame_chain) kernel_name).2 frame_chain).2 ∧
    (∀ pool : σ → KernelPool, PoolModel env pool →
      pool (runOclKernel env s frame_chain kernel_name work_dims global_work_size
        local_work_size value rest).state = pool s) := by
  have hnot : ¬ CompileSucceeds env s frame_chain kernel_name := by
    unfold CompileSucceeds
    rw [hfail]
    simp
  obtain ⟨ht, he, hs⟩ := runOclKernel_compileFailed env s frame_chain kernel_name work_dims
    global_work_size local_work_size value rest hmiss hnot
  refine ⟨ht, ?_, he, hs, ?_⟩
  · rw [ht]
    intro e hmem
    simp only [List.mem_cons, List.mem_singleton, List.not_mem_nil, or_false] at hmem
    rcases hmem with rfl | rfl <;> simp [Event.kind]
  · intro pool hm
    rw [hs]
    unfold compiled poolLookup
    rw [hm.compile_pool, hm.lookup_pool]

/-- C5 at a concrete call: an empty pool and a unit that does not compile. -/
theorem runOclKernel_compile_failure_witness :
    CacheMiss (scriptedEnv uncompilableScript) [] 0 "kernelX" ∧
      (compiled (scriptedEnv uncompilableScript) [] 0 "kernelX").1 = false ∧
      (exampleRun uncompilableScript []).trace
        = [Event.getKernelFromPool 1 "projA" "kernelX" nullKernel,
           Event.compileOclKernels 0 false] ∧
      (exampleRun uncompilableScript []).state = [] :=
  ⟨by decide, by decide,
    (runOclKernel_compile_failure (scriptedEnv uncompilableScript) [] 0
      "kernelX" 1 (some [1024]) (some [64]) ⟨8, 5⟩ [] (by decide) (by decide)).1,
    (runOclKernel_compile_failure (scriptedEnv uncompilableScript) [] 0
      "kernelX" 1 (some [1024]) (some [64]) ⟨8, 5⟩ [] (by decide) (by decide)).2.2.2.2 id
      (scriptedEnv_poolModel uncompilableScript rfl)⟩

/-! ## After a miss and a successful compilation -/

/-- The selected handle is the initial one when no round has the requested
name. -/
theorem selectKernel_of_not_mem (kernel_name : String) :
    ∀ (cs : List Created) (kernel : cl_kernel), kernel_name ∉ cs.map Created.name →
      selectKernel kernel_name cs kernel = kernel := by
  intro cs
  induction cs with
  | nil => intro kernel _; rfl
  | cons c cs ih =>
    intro kernel h
    simp only [List.map_cons, List.mem_cons, not_or] at h
    have hne : ¬ c.name = kernel_name := fun e => h.1 e.symm
    simp only [selectKernel, hne, if_false]
    exact ih kernel h.2

/-- The selected handle is the handle of a round with the requested name,
when there is such a round. -/
theorem selectKernel_of_mem (kernel_name : String) :
    ∀ (cs : List Created) (kernel : cl_kernel), kernel_name ∈ cs.map Created.name →
      ∃ c ∈ cs, c.name = kernel_name ∧ c.kernel = selectKernel kernel_name cs kernel := by
  intro cs
  induction cs with
  | nil => intro kernel h; simp at h
  | cons c cs ih =>
    intro kernel h
    by_cases hin : kernel_name ∈ cs.map Created.name
    · obtain ⟨d, hd, hname, hk⟩ := ih (if c.name = kernel_name then c.kernel else kernel) hin
      exact ⟨d, List.mem_cons_of_mem c hd, hname, by simpa [selectKernel] using hk⟩
    · have hc : c.name = kernel_name := by
        simp only [List.map_cons, List.mem_cons] at h
        rcases h with h | h
        · exact h.symm
        · exact absurd h hin
      refine ⟨c, List.mem_cons_self c cs, hc, ?_⟩
      simp only [selectKernel, hc, if_true]
      exact (selectKernel_of_not_mem kernel_name cs c.kernel hin).symm

/-- The two calls of a completed round are adjacent in the trace of the
rounds. -/
theorem round_adjacent (program : cl_program) (context : cl_context) (project_name : String) :
    ∀ (cs : List Created) (c : Created), c ∈ cs →
      [Event.clCreateKernel program c.name c.kernel CL_SUCCESS,
        Event.insertKernelToPool context project_name c.name c.kernel c.inserted]
        <:+: populationTrace program context project_name cs := by
  intro cs
  induction cs with
  | nil => intro c h; simp at h
  | cons d cs ih =>
    intro c h
    rcases List.mem_cons.mp h with rfl | h
    · exact ⟨[], populationTrace program context project_name cs, by simp [populationTrace]⟩
    · obtain ⟨a, b, hab⟩ := ih c h
      refine ⟨Event.clCreateKernel program d.name d.kernel CL_SUCCESS ::
        Event.insertKernelToPool context project_name d.name d.kernel d.inserted :: a, b, ?_⟩
      simp only [populationTrace, List.cons_append]
      rw [← hab]

/-- The opening calls of a miss are a lookup, a compilation and an
enumeration. -/
theorem mem_missOpening (env : Env σ) (s : σ) (frame_chain : FrameChainPtr)
    (kernel_name : String) (e : Event) (he : e ∈ missOpening env s frame_chain kernel_name) :
    e.kind = Kind.lookup ∨ e.kind = Kind.compile ∨ e.kind = Kind.names := by
  simp only [missOpening, List.mem_cons, List.mem_singleton, List.not_mem_nil, or_false] at he
  rcases he with rfl | rfl | rfl
  · exact Or.inl rfl
  · exact Or.inr (Or.inl rfl)
  · exact Or.inr (Or.inr rfl)

/-- A call that misses, compiles and in which no creation fails: the opening
calls, one completed round per enumerated name, then lines 110-132 on the
selected handle. -/
theorem runOclKernel_all_created (env : Env σ) (s : σ) (frame_chain : FrameChainPtr)
    (kernel_name : String) (work_dims : cl_uint) (global_work_size local_work_size : WorkSize)
    (value : KernelArg) (rest : List KernelArg)
    (hmiss : CacheMiss env s frame_chain kernel_name)
    (hcomp : CompileSucceeds env s frame_chain kernel_name)
    (hall : AllCreated (runOclKernel env s frame_chain kernel_name work_dims global_work_size
      local_work_size value rest).trace) :
    ∃ cs : List Created,
      enumeratedNames env s frame_chain kernel_name = cs.map Created.name ∧
        (runOclKernel env s frame_chain kernel_name work_dims global_work_size
            local_work_size value rest).trace
          = missOpening env s frame_chain kernel_name
            ++ populationTrace (compiledProgram env s frame_chain kernel_name)
                (env.getContext s frame_chain) (env.getProjectName s frame_chain) cs
            ++ (dispatchKernel env frame_chain kernel_name work_dims global_work_size
                local_work_size value rest (selectKernel kernel_name cs nullKernel)
                (population env s frame_chain kernel_name).2.2).trace ∧
        (runOclKernel env s frame_chain kernel_name work_dims global_work_size
            local_work_size value rest).exit
          = (dispatchKernel env frame_chain kernel_name work_dims global_work_size
                local_work_size value rest (selectKernel kernel_name cs nullKernel)
                (population env s frame_chain kernel_name).2.2).exit ∧
        (runOclKernel env s frame_chain kernel_name work_dims global_work_size
            local_work_size value rest).state
          = (dispatchKernel env frame_chain kernel_name work_dims global_work_size
                local_work_size value rest (selectKernel kernel_name cs nullKernel)
                (population env s frame_chain kernel_name).2.2).state := by
  obtain ⟨cs, h | ⟨n, h, code, tl, -, hcode, ht, -, -⟩⟩ :=
    runOclKernel_populated env s frame_chain kernel_name work_dims global_work_size
      local_work_size value rest hmiss hcomp
  · exact ⟨cs, h⟩
  · exfalso
    have hmem : Event.clCreateKernel (compiledProgram env s frame_chain kernel_name) n h code
        ∈ (runOclKernel env s frame_chain kernel_name work_dims global_work_size
          local_work_size value rest).trace := by
      rw [ht]
      simp
    have := hall _ hmem
    simp [Event.createFailed, hcode] at this

/-- Bulk population holds of any trace that contains one completed round per
enumerated name. -/
theorem bulkPopulated_of_rounds (env : Env σ) (s : σ) (frame_chain : FrameChainPtr)
    (kernel_name : String) (cs : List Created) (a b : List Event)
    (hn : enumeratedNames env s frame_chain kernel_name = cs.map Created.name) :
    BulkPopulated env s frame_chain kernel_name
      (a ++ populationTrace (compiledProgram env s frame_chain kernel_name)
        (env.getContext s frame_chain) (env.getProjectName s frame_chain) cs ++ b) := by
  intro n hmem
  rw [hn] at hmem
  obtain ⟨c, hc, rfl⟩ := List.mem_map.mp hmem
  obtain ⟨x, y, hxy⟩ := round_adjacent (compiledProgram env s frame_chain kernel_name)
    (env.getContext s frame_chain) (env.getProjectName s frame_chain) cs c hc
  refine ⟨c.kernel, c.inserted, a ++ x, y ++ b, ?_⟩
  rw [← hxy]
  simp

/-- No call of binding, validation or enqueue among the opening calls and the
completed rounds. -/
theorem noDispatch_opening_rounds (env : Env σ) (s : σ) (frame_chain : FrameChainPtr)
    (kernel_name : String) (program : cl_program) (context : cl_context)
    (project_name : String) (cs : List Created) :
    NoDispatch (missOpening env s frame_chain kernel_name
      ++ populationTrace program context project_name cs) := by
  intro e he
  rcases List.mem_append.mp he with h | h
  · rcases mem_missOpening env s frame_chain kernel_name e h with h | h | h <;>
      simp [h]
  · obtain ⟨c, -, rfl | rfl⟩ := (mem_populationTrace program context project_name e cs).mp h <;>
      simp [Event.kind]

/-! ## C6: a name the unit does not define -/

/-- C6. Miss-after-miss: when the lookup misses, the compilation succeeds, no
creation fails and the requested name is not among the enumerated names, the
call leaves through line 112 (`No valid kernel to run`): no argument is
bound, no geometry validated and nothing enqueued (no handle of another name
is dispatched), while for every enumerated name the kernel was created and the
insert of its handle under (context, project, name) was attempted. -/
theorem runOclKernel_unknown_name (env : Env σ) (s : σ) (frame_chain : FrameChainPtr)
    (kernel_name : String) (work_dims : cl_uint) (global_work_size local_work_size : WorkSize)
    (value : KernelArg) (rest : List KernelArg)
    (hmiss : CacheMiss env s frame_chain kernel_name)
    (hcomp : CompileSucceeds env s frame_chain kernel_name)
    (hall : AllCreated (runOclKernel env s frame_chain kernel_name work_dims global_work_size
      local_work_size value rest).trace)
    (hnot : kernel_name ∉ enumeratedNames env s frame_chain kernel_name) :
    (runOclKernel env s frame_chain kernel_name work_dims global_work_size local_work_size
        value rest).exit = Exit.noValidKernel ∧
    NoDispatch (runOclKernel env s frame_chain kernel_name work_dims global_work_size
        local_work_size value rest).trace ∧
    (∀ e ∈ (runOclKernel env s frame_chain kernel_name work_dims global_work_size
        local_work_size value rest).trace, e.usedKernel = none) ∧
    BulkPopulated env s frame_chain kernel_name
      (runOclKernel env s frame_chain kernel_name work_dims global_work_size local_work_size
        value rest).trace := by
  obtain ⟨cs, hn, ht, hexit, -⟩ := runOclKernel_all_created env s frame_chain kernel_name
    work_dims global_work_size local_work_size value rest hmiss hcomp hall
  rw [hn] at hnot
  have hsel := selectKernel_of_not_mem kernel_name cs nullKernel hnot
  rw [hsel] at ht hexit
  rcases dispatchKernel_shape env frame_chain kernel_name work_dims global_work_size
      local_work_size value rest nullKernel (population env s frame_chain kernel_name).2.2 with
    ⟨-, hdt, hde, -⟩ | ⟨hne, -⟩
  · rw [hdt, List.append_nil] at ht
    have hnd := noDispatch_opening_rounds env s frame_chain kernel_name
      (compiledProgram env s frame_chain kernel_name) (env.getContext s frame_chain)
      (env.getProjectName s frame_chain) cs
    refine ⟨by rw [hexit, hde], by rw [ht]; exact hnd, ?_, ?_⟩
    · intro e he
      rw [ht] at he
      have hk := hnd e he
      cases e <;> simp [Event.kind] at hk <;> rfl
    · rw [ht]
      have := bulkPopulated_of_rounds env s frame_chain kernel_name cs
        (missOpening env s frame_chain kernel_name) [] hn
      simpa using this
  · exact absurd rfl hne

/-- C6 at a concrete call: `kernelX` is requested of a unit that defines
`kernelY` only. -/
theorem runOclKernel_unknown_name_witness :
    CacheMiss (scriptedEnv otherScript) [] 0 "kernelX" ∧
      CompileSucceeds (scriptedEnv otherScript) [] 0 "kernelX" ∧
      AllCreated (exampleRun otherScript []).trace ∧
      "kernelX" ∉ enumeratedNames (scriptedEnv otherScript) [] 0 "kernelX" ∧
      (exampleRun otherScript []).exit = Exit.noValidKernel ∧
      NoDispatch (exampleRun otherScript []).trace ∧
      (∀ e ∈ (exampleRun otherScript []).trace, e.usedKernel = none) ∧
      BulkPopulated (scriptedEnv otherScript) [] 0 "kernelX" (exampleRun otherScript []).trace :=
  ⟨by decide, by decide, by decide, by decide,
    runOclKernel_unknown_name (scriptedEnv otherScript) [] 0 "kernelX" 1 (some [1024])
      (some [64]) ⟨8, 5⟩ [] (by decide) (by decide) (by decide) (by decide)⟩

/-! ## C4: bulk population -/

/-- C4 as stated fails: on an empty pool, with a unit that compiles and
defines `kernelX` and `kernelY`, and a device that reports an error when
`kernelX` is created, the call misses and compiles successfully, `kernelY`
is enumerated, and yet the call makes no insert at all: the loop has left
the function at the first creation. -/
theorem bulk_population_counterexample :
    CacheMiss (scriptedEnv failingCreateScript) [] 0 "kernelX" ∧
      CompileSucceeds (scriptedEnv failingCreateScript) [] 0 "kernelX" ∧
      "kernelY" ∈ enumeratedNames (scriptedEnv failingCreateScript) [] 0 "kernelX" ∧
      (exampleRun failingCreateScript []).trace
        = [Event.getKernelFromPool 1 "projA" "kernelX" 0,
           Event.compileOclKernels 0 true,
           Event.getKernelNames 7 ["kernelX", "kernelY"],
           Event.clCreateKernel 7 "kernelX" 0 (-46)] ∧
      ¬ BulkPopulated (scriptedEnv failingCreateScript) [] 0 "kernelX"
        (exampleRun failingCreateScript []).trace := by
  have ht : (exampleRun failingCreateScript []).trace
      = [Event.getKernelFromPool 1 "projA" "kernelX" 0,
         Event.compileOclKernels 0 true,
         Event.getKernelNames 7 ["kernelX", "kernelY"],
         Event.clCreateKernel 7 "kernelX" 0 (-46)] := by decide
  refine ⟨by decide, by decide, by decide, ht, ?_⟩
  intro h
  obtain ⟨k, ok, a, b, hab⟩ := h "kernelY" (by decide)
  have hmem : Event.insertKernelToPool
      ((scriptedEnv failingCreateScript).getContext [] 0)
      ((scriptedEnv failingCreateScript).getProjectName [] 0) "kernelY" k ok
      ∈ (exampleRun failingCreateScript []).trace := by
    rw [← hab]
    simp
  rw [ht] at hmem
  simp at hmem

/-- C4, amended. Bulk population: when the lookup misses, the compilation
succeeds and no call of `clCreateKernel` reports an error, then for every
name enumerated by `getKernelNames`, not only for the requested one, a kernel
object is created and the next call is the insert of that object into the
pool under (context, project name, that name). -/
theorem runOclKernel_bulk_population (env : Env σ) (s : σ) (frame_chain : FrameChainPtr)
    (kernel_name : String) (work_dims : cl_uint) (global_work_size local_work_size : WorkSize)
    (value : KernelArg) (rest : List KernelArg)
    (hmiss : CacheMiss env s frame_chain kernel_name)
    (hcomp : CompileSucceeds env s frame_chain kernel_name)
    (hall : AllCreated (runOclKernel env s frame_chain kernel_name work_dims global_work_size
      local_work_size value rest).trace) :
    ∀ n ∈ (env.getKernelNames (compiled env s frame_chain kernel_name).2
        (env.getProgram (compiled env s frame_chain kernel_name).2 frame_chain)).1.2,
      ∃ h ok,
        [Event.clCreateKernel (env.getProgram (compiled env s frame_chain kernel_name).2
            frame_chain) n h CL_SUCCESS,
          Event.insertKernelToPool (env.getContext s frame_chain)
            (env.getProjectName s frame_chain) n h ok]
          <:+: (runOclKernel env s frame_chain kernel_name work_dims global_work_size
            local_work_size value rest).trace := by
  obtain ⟨cs, hn, ht, -, -⟩ := runOclKernel_all_created env s frame_chain kernel_name
    work_dims global_work_size local_work_size value rest hmiss hcomp hall
  rw [ht]
  exact bulkPopulated_of_rounds env s frame_chain kernel_name cs _ _ hn

/-- C4, amended, at a concrete call: the first run of `kernelX` on an empty
pool populates the pool with `kernelY` too. -/
theorem runOclKernel_bulk_population_witness :
    CacheMiss (scriptedEnv goodScript) [] 0 "kernelX" ∧
      CompileSucceeds (scriptedEnv goodScript) [] 0 "kernelX" ∧
      AllCreated (exampleRun goodScript []).trace ∧
      ∃ h ok, [Event.clCreateKernel 7 "kernelY" h CL_SUCCESS,
        Event.insertKernelToPool 1 "projA" "kernelY" h ok]
          <:+: (exampleRun goodScript []).trace :=
  ⟨by decide, by decide, by decide,
    runOclKernel_bulk_population (scriptedEnv goodScript) [] 0 "kernelX" 1 (some [1024])
      (some [64]) ⟨8, 5⟩ [] (by decide) (by decide) (by decide) "kernelY" (by decide)⟩

/-! ## C9: partial population -/

/-- The insert calls of a trace made of opening calls, completed rounds and a
tail without inserts are those of the rounds. -/
theorem calls_insert_rounds (env : Env σ) (s : σ) (frame_chain : FrameChainPtr)
    (kernel_name : String) (program : cl_program) (context : cl_context)
    (project_name : String) (cs : List Created) (b : List Event)
    (hb : ∀ e ∈ b, e.kind ≠ Kind.insert) :
    calls Kind.insert (missOpening env s frame_chain kernel_name
        ++ populationTrace program context project_name cs ++ b)
      = cs.map (Created.insertEvent context project_name) := by
  have ho : calls Kind.insert (missOpening env s frame_chain kernel_name) = [] := by
    apply calls_eq_nil
    intro e he
    rcases mem_missOpening env s frame_chain kernel_name e he with h | h | h <;> simp [h]
  rw [calls_append, calls_append, ho, calls_insert_populationTrace, calls_eq_nil _ b hb]
  simp

/-- C9. Partial population on kernel-creation failure: in a call that misses
the cache and compiles successfully, the enumerated names split into the names
of the completed rounds `cs` and the rest `tl`.  The calls of
`insertKernelToPool` are exactly one per completed round, in enumeration
order, each with the handle created for that name, and each right after the
creation of that handle.  If no creation fails, the rounds cover all names.
Otherwise `tl = n :: _` where `n` is the first name whose creation reports an
error: the trace ends with that failed creation (no insert for `n` or a later
name, nothing removed from the pool, no argument bound, nothing enqueued,
whether or not the requested name is among the earlier ones) and the call
returns through line 96. -/
theorem runOclKernel_partial_population (env : Env σ) (s : σ) (frame_chain : FrameChainPtr)
    (kernel_name : String) (work_dims : cl_uint) (global_work_size local_work_size : WorkSize)
    (value : KernelArg) (rest : List KernelArg)
    (hmiss : CacheMiss env s frame_chain kernel_name)
    (hcomp : CompileSucceeds env s frame_chain kernel_name) :
    ∃ (cs : List Created) (tl : List String),
      enumeratedNames env s frame_chain kernel_name = cs.map Created.name ++ tl ∧
      calls Kind.insert (runOclKernel env s frame_chain kernel_name work_dims
          global_work_size local_work_size value rest).trace
        = cs.map (Created.insertEvent (env.getContext s frame_chain)
            (env.getProjectName s frame_chain)) ∧
      populationTrace (compiledProgram env s frame_chain kernel_name)
          (env.getContext s frame_chain) (env.getProjectName s frame_chain) cs
        <:+: (runOclKernel env s frame_chain kernel_name work_dims global_work_size
          local_work_size value rest).trace ∧
      ((tl = [] ∧
          AllCreated (runOclKernel env s frame_chain kernel_name work_dims global_work_size
            local_work_size value rest).trace) ∨
        (∃ n h code tl2, tl = n :: tl2 ∧ code ≠ CL_SUCCESS ∧
          (runOclKernel env s frame_chain kernel_name work_dims global_work_size
              local_work_size value rest).trace
            = missOpening env s frame_chain kernel_name
              ++ populationTrace (compiledProgram env s frame_chain kernel_name)
                  (env.getContext s frame_chain) (env.getProjectName s frame_chain) cs
              ++ [Event.clCreateKernel (compiledProgram env s frame_chain kernel_name)
                    n h code] ∧
          NoDispatch (runOclKernel env s frame_chain kernel_name work_dims global_work_size
              local_work_size value rest).trace ∧
          (runOclKernel env s frame_chain kernel_name work_dims global_work_size
              local_work_size value rest).exit = Exit.createKernelFailed ∧
          (runOclKernel env s frame_chain kernel_name work_dims global_work_size
              local_work_size value rest).state
            = (population env s frame_chain kernel_name).2.2)) := by
  obtain ⟨cs, ⟨hn, ht, -, -⟩ | ⟨n, h, code, tl, hn, hcode, ht, hexit, hstate⟩⟩ :=
    runOclKernel_populated env s frame_chain kernel_name work_dims global_work_size
      local_work_size value rest hmiss hcomp
  · refine ⟨cs, [], by simpa using hn, ?_, ?_, Or.inl ⟨rfl, ?_⟩⟩
    · rw [ht]
      apply calls_insert_rounds
      intro e he
      rcases mem_dispatchKernel env frame_chain kernel_name work_dims global_work_size
        local_work_size value rest _ _ e he with
        ⟨j, z, v, c, rfl⟩ | ⟨b, rfl⟩ | ⟨ok, rfl⟩ <;> simp [Event.kind]
    · exact ⟨missOpening env s frame_chain kernel_name, _, ht.symm⟩
    · rw [ht]
      intro e he
      rcases List.mem_append.mp he with he | he
      · rcases List.mem_append.mp he with he | he
        · simp only [missOpening, List.mem_cons, List.mem_singleton, List.not_mem_nil,
            or_false] at he
          rcases he with rfl | rfl | rfl <;> rfl
        · exact allCreated_populationTrace _ _ _ cs e he
      · exact allCreated_dispatchKernel env frame_chain kernel_name work_dims
          global_work_size local_work_size value rest _ _ e he
  · refine ⟨cs, n :: tl, hn, ?_, ?_, Or.inr ⟨n, h, code, tl, rfl, hcode, ht, ?_, hexit, hstate⟩⟩
    · rw [ht]
      apply calls_insert_rounds
      intro e he
      simp only [List.mem_singleton] at he
      subst he
      simp [Event.kind]
    · exact ⟨missOpening env s frame_chain kernel_name, _, ht.symm⟩
    · rw [ht]
      intro e he
      rcases List.mem_append.mp he with he | he
      · exact noDispatch_opening_rounds env s frame_chain kernel_name _ _ _ cs e he
      · simp only [List.mem_singleton] at he
        subst he
        simp [Event.kind]

/-- C9 at a concrete call: `kernelX` is created and inserted, the creation of
`kernelY` fails, and the requested `kernelX` is not dispatched. -/
theorem runOclKernel_partial_population_witness :
    CacheMiss (scriptedEnv failingSecondScript) [] 0 "kernelX" ∧
      CompileSucceeds (scriptedEnv failingSecondScript) [] 0 "kernelX" ∧
      (exampleRun failingSecondScript []).trace
        = [Event.getKernelFromPool 1 "projA" "kernelX" 0,
           Event.compileOclKernels 0 true,
           Event.getKernelNames 7 ["kernelX", "kernelY"],
           Event.clCreateKernel 7 "kernelX" 11 0,
           Event.insertKernelToPool 1 "projA" "kernelX" 11 true,
           Event.clCreateKernel 7 "kernelY" 0 (-46)] ∧
      ∃ (cs : List Created) (tl : List String),
        enumeratedNames (scriptedEnv failingSecondScript) [] 0 "kernelX"
          = cs.map Created.name ++ tl ∧
        calls Kind.insert (exampleRun failingSecondScript []).trace
          = cs.map (Created.insertEvent 1 "projA") ∧
        populationTrace 7 1 "projA" cs <:+: (exampleRun failingSecondScript []).trace ∧
        ((tl = [] ∧ AllCreated (exampleRun failingSecondScript []).trace) ∨
          (∃ n h code tl2, tl = n :: tl2 ∧ code ≠ CL_SUCCESS ∧
            (exampleRun failingSecondScript []).trace
              = missOpening (scriptedEnv failingSecondScript) [] 0 "kernelX"
                ++ populationTrace 7 1 "projA" cs ++ [Event.clCreateKernel 7 n h code] ∧
            NoDispatch (exampleRun failingSecondScript []).trace ∧
            (exampleRun failingSecondScript []).exit = Exit.createKernelFailed ∧
            (exampleRun failingSecondScript []).state
              = (population (scriptedEnv failingSecondScript) [] 0 "kernelX").2.2)) :=
  ⟨by decide, by decide, by decide,
    runOclKernel_partial_population (scriptedEnv failingSecondScript) [] 0 "kernelX" 1
      (some [1024]) (some [64]) ⟨8, 5⟩ [] (by decide) (by decide)⟩

/-! ## When the requested name is enumerated -/

/-- A successful creation recorded in a trace whose handles are non-null
returned a non-null handle. -/
theorem handle_ne_null (t : List Event) (hnn : HandlesNonNull t) (program : cl_program)
    (name : String) (h : cl_kernel)
    (hmem : Event.clCreateKernel program name h CL_SUCCESS ∈ t) : h ≠ nullKernel := by
  have := hnn _ hmem
  simpa [Event.createdNull] using this

/-- A call that misses, compiles, creates every kernel (non-null) and whose
requested name is enumerated: lines 110-132 run on the handle of a completed
round for the requested name, which is non-null. -/
theorem runOclKernel_known_name (env : Env σ) (s : σ) (frame_chain : FrameChainPtr)
    (kernel_name : String) (work_dims : cl_uint) (global_work_size local_work_size : WorkSize)
    (value : KernelArg) (rest : List KernelArg)
    (hmiss : CacheMiss env s frame_chain kernel_name)
    (hcomp : CompileSucceeds env s frame_chain kernel_name)
    (hall : AllCreated (runOclKernel env s frame_chain kernel_name work_dims global_work_size
      local_work_size value rest).trace)
    (hnn : HandlesNonNull (runOclKernel env s frame_chain kernel_name work_dims
      global_work_size local_work_size value rest).trace)
    (hin : kernel_name ∈ enumeratedNames env s frame_chain kernel_name) :
    ∃ (cs : List Created) (c : Created),
      enumeratedNames env s frame_chain kernel_name = cs.map Created.name ∧
      c ∈ cs ∧ c.name = kernel_name ∧ c.kernel ≠ nullKernel ∧
      c.kernel = selectKernel kernel_name cs nullKernel ∧
      (runOclKernel env s frame_chain kernel_name work_dims global_work_size
          local_work_size value rest).trace
        = missOpening env s frame_chain kernel_name
          ++ populationTrace (compiledProgram env s frame_chain kernel_name)
              (env.getContext s frame_chain) (env.getProjectName s frame_chain) cs
          ++ (dispatchKernel env frame_chain kernel_name work_dims global_work_size
              local_work_size value rest c.kernel
              (population env s frame_chain kernel_name).2.2).trace ∧
      (runOclKernel env s frame_chain kernel_name work_dims global_work_size
          local_work_size value rest).exit
        = (dispatchKernel env frame_chain kernel_name work_dims global_work_size
              local_work_size value rest c.kernel
              (population env s frame_chain kernel_name).2.2).exit ∧
      (runOclKernel env s frame_chain kernel_name work_dims global_work_size
          local_work_size value rest).state
        = (dispatchKernel env frame_chain kernel_name work_dims global_work_size
              local_work_size value rest c.kernel
              (population env s frame_chain kernel_name).2.2).state := by
  obtain ⟨cs, hn, ht, hexit, hstate⟩ := runOclKernel_all_created env s frame_chain
    kernel_name work_dims global_work_size local_work_size value rest hmiss hcomp hall
  rw [hn] at hin
  obtain ⟨c, hc, hname, hk⟩ := selectKernel_of_mem kernel_name cs nullKernel hin
  have hcreate : Event.clCreateKernel (compiledProgram env s frame_chain kernel_name) c.name
      c.kernel CL_SUCCESS
      ∈ (runOclKernel env s frame_chain kernel_name work_dims global_work_size
        local_work_size value rest).trace := by
    rw [ht]
    apply List.mem_append_left
    apply List.mem_append_right
    exact (mem_populationTrace _ _ _ _ cs).mpr ⟨c, hc, Or.inl rfl⟩
  refine ⟨cs, c, hn, hc, hname, handle_ne_null _ hnn _ _ _ hcreate, hk, ?_, ?_, ?_⟩
  · rw [hk]; exact ht
  · rw [hk]; exact hexit
  · rw [hk]; exact hstate

/-- In a call that misses and compiles, either no creation fails or the call
has dispatched nothing. -/
theorem allCreated_or_noDispatch (env : Env σ) (s : σ) (frame_chain : FrameChainPtr)
    (kernel_name : String) (work_dims : cl_uint) (global_work_size local_work_size : WorkSize)
    (value : KernelArg) (rest : List KernelArg)
    (hmiss : CacheMiss env s frame_chain kernel_name)
    (hcomp : CompileSucceeds env s frame_chain kernel_name) :
    AllCreated (runOclKernel env s frame_chain kernel_name work_dims global_work_size
        local_work_size value rest).trace ∨
      NoDispatch (runOclKernel env s frame_chain kernel_name work_dims global_work_size
        local_work_size value rest).trace := by
  obtain ⟨cs, ⟨-, ht, -, -⟩ | ⟨n, h, code, tl, -, -, ht, -, -⟩⟩ :=
    runOclKernel_populated env s frame_chain kernel_name work_dims global_work_size
      local_work_size value rest hmiss hcomp
  · left
    rw [ht]
    intro e he
    rcases List.mem_append.mp he with he | he
    · rcases List.mem_append.mp he with he | he
      · simp only [missOpening, List.mem_cons, List.mem_singleton, List.not_mem_nil,
          or_false] at he
        rcases he with rfl | rfl | rfl <;> rfl
      · exact allCreated_populationTrace _ _ _ cs e he
    · exact allCreated_dispatchKernel env frame_chain kernel_name work_dims
        global_work_size local_work_size value rest _ _ e he
  · right
    rw [ht]
    intro e he
    rcases List.mem_append.mp he with he | he
    · exact noDispatch_opening_rounds env s frame_chain kernel_name _ _ _ cs e he
    · simp only [List.mem_singleton] at he
      subst he
      simp [Event.kind]

/-- When no creation fails and the requested name is not enumerated, nothing
is dispatched. -/
theorem noDispatch_of_not_mem (env : Env σ) (s : σ) (frame_chain : FrameChainPtr)
    (kernel_name : String) (work_dims : cl_uint) (global_work_size local_work_size : WorkSize)
    (value : KernelArg) (rest : List KernelArg)
    (hmiss : CacheMiss env s frame_chain kernel_name)
    (hcomp : CompileSucceeds env s frame_chain kernel_name)
    (hall : AllCreated (runOclKernel env s frame_chain kernel_name work_dims global_work_size
      local_work_size value rest).trace)
    (hnot : kernel_name ∉ enumeratedNames env s frame_chain kernel_name) :
    NoDispatch (runOclKernel env s frame_chain kernel_name work_dims global_work_size
      local_work_size value rest).trace := by
  obtain ⟨cs, hn, ht, -, -⟩ := runOclKernel_all_created env s frame_chain kernel_name
    work_dims global_work_size local_work_size value rest hmiss hcomp hall
  rw [hn] at hnot
  rw [selectKernel_of_not_mem kernel_name cs nullKernel hnot] at ht
  rcases dispatchKernel_shape env frame_chain kernel_name work_dims global_work_size
      local_work_size value rest nullKernel (population env s frame_chain kernel_name).2.2 with
    ⟨-, hdt, -, -⟩ | ⟨hne, -⟩
  · rw [hdt, List.append_nil] at ht
    rw [ht]
    exact noDispatch_opening_rounds env s frame_chain kernel_name _ _ _ cs
  · exact absurd rfl hne

/-! ## C8: every insert fails -/

/-- C8 as stated fails: on a pool that rejects every insert, the call misses,
compiles, every call of `insertKernelToPool` returns false, the one for the
requested `kernelX` included, and yet handle 11, created for `kernelX`, is
bound and enqueued. -/
theorem failed_population_counterexample :
    CacheMiss (scriptedEnv rejectingScript) [] 0 "kernelX" ∧
      CompileSucceeds (scriptedEnv rejectingScript) [] 0 "kernelX" ∧
      PopulationFailedEntirely (exampleRun rejectingScript []).trace ∧
      (exampleRun rejectingScript []).trace
        = [Event.getKernelFromPool 1 "projA" "kernelX" 0,
           Event.compileOclKernels 0 true,
           Event.getKernelNames 7 ["kernelX", "kernelY"],
           Event.clCreateKernel 7 "kernelX" 11 0,
           Event.insertKernelToPool 1 "projA" "kernelX" 11 false,
           Event.clCreateKernel 7 "kernelY" 12 0,
           Event.insertKernelToPool 1 "projA" "kernelY" 12 false,
           Event.clSetKernelArg 11 0 8 5 0,
           Event.validateNDrange 1 (some [1024]) (some [64]) true,
           Event.enqueueOclKernel 0 "kernelX" 11 1 (some [1024]) (some [64]) true] ∧
      ¬ NoDispatch (exampleRun rejectingScript []).trace :=
  ⟨by decide, by decide, by decide, by decide, by decide⟩

/-- C8, amended. In a call that misses the cache and compiles successfully
(created handles being non-null), if every call of `insertKernelToPool`
returned false, the call aborts with no argument bound, no geometry validated
and nothing enqueued exactly when a creation failed or the requested name is
not among the enumerated names.  Failed inserts do not make a handle
unavailable: when no creation failed and the requested name is enumerated,
an insert under the requested name returned false and binding nevertheless
starts at index 0 on the handle of that insert. -/
theorem runOclKernel_failed_population (env : Env σ) (s : σ) (frame_chain : FrameChainPtr)
    (kernel_name : String) (work_dims : cl_uint) (global_work_size local_work_size : WorkSize)
    (value : KernelArg) (rest : List KernelArg)
    (hmiss : CacheMiss env s frame_chain kernel_name)
    (hcomp : CompileSucceeds env s frame_chain kernel_name)
    (hnn : HandlesNonNull (runOclKernel env s frame_chain kernel_name work_dims
      global_work_size local_work_size value rest).trace)
    (hfail : PopulationFailedEntirely (runOclKernel env s frame_chain kernel_name work_dims
      global_work_size local_work_size value rest).trace) :
    (NoDispatch (runOclKernel env s frame_chain kernel_name work_dims global_work_size
        local_work_size value rest).trace ↔
      (¬ AllCreated (runOclKernel env s frame_chain kernel_name work_dims global_work_size
          local_work_size value rest).trace ∨
        kernel_name ∉ enumeratedNames env s frame_chain kernel_name)) ∧
    (AllCreated (runOclKernel env s frame_chain kernel_name work_dims global_work_size
          local_work_size value rest).trace →
      kernel_name ∈ enumeratedNames env s frame_chain kernel_name →
      ∃ h, h ≠ nullKernel ∧
        Event.insertKernelToPool (env.getContext s frame_chain)
            (env.getProjectName s frame_chain) kernel_name h false
          ∈ (runOclKernel env s frame_chain kernel_name work_dims global_work_size
            local_work_size value rest).trace ∧
        ∃ c, Event.clSetKernelArg h 0 value.size value.value c
          ∈ (runOclKernel env s frame_chain kernel_name work_dims global_work_size
            local_work_size value rest).trace) := by
  have hyes : AllCreated (runOclKernel env s frame_chain kernel_name work_dims
        global_work_size local_work_size value rest).trace →
      kernel_name ∈ enumeratedNames env s frame_chain kernel_name →
      ∃ h, h ≠ nullKernel ∧
        Event.insertKernelToPool (env.getContext s frame_chain)
            (env.getProjectName s frame_chain) kernel_name h false
          ∈ (runOclKernel env s frame_chain kernel_name work_dims global_work_size
            local_work_size value rest).trace ∧
        ∃ c, Event.clSetKernelArg h 0 value.size value.value c
          ∈ (runOclKernel env s frame_chain kernel_name work_dims global_work_size
            local_work_size value rest).trace := by
    intro hall hin
    obtain ⟨cs, c, -, hc, hname, hne, -, ht, -, -⟩ := runOclKernel_known_name env s
      frame_chain kernel_name work_dims global_work_size local_work_size value rest hmiss
      hcomp hall hnn hin
    obtain ⟨code, tl, hd⟩ := dispatchKernel_first env frame_chain kernel_name work_dims
      global_work_size local_work_size value rest c.kernel
      (population env s frame_chain kernel_name).2.2 hne
    have hins : Event.insertKernelToPool (env.getContext s frame_chain)
        (env.getProjectName s frame_chain) c.name c.kernel c.inserted
        ∈ (runOclKernel env s frame_chain kernel_name work_dims global_work_size
          local_work_size value rest).trace := by
      rw [ht]
      apply List.mem_append_left
      apply List.mem_append_right
      exact (mem_populationTrace _ _ _ _ cs).mpr ⟨c, hc, Or.inr rfl⟩
    have hfalse : c.inserted = false := by
      have := hfail _ hins
      simpa [Event.insertSucceeded] using this
    rw [hfalse, hname] at hins
    refine ⟨c.kernel, hne, hins, code, ?_⟩
    rw [ht, hd]
    simp
  refine ⟨⟨?_, ?_⟩, hyes⟩
  · intro hnd
    by_cases hall : AllCreated (runOclKernel env s frame_chain kernel_name work_dims
        global_work_size local_work_size value rest).trace
    · right
      intro hin
      obtain ⟨h, -, -, c, hmem⟩ := hyes hall hin
      have := (hnd _ hmem).1
      simp [Event.kind] at this
    · exact Or.inl hall
  · rintro (hnot | hnot)
    · rcases allCreated_or_noDispatch env s frame_chain kernel_name work_dims
          global_work_size local_work_size value rest hmiss hcomp with h | h
      · exact absurd h hnot
      · exact h
    · rcases allCreated_or_noDispatch env s frame_chain kernel_name work_dims
          global_work_size local_work_size value rest hmiss hcomp with h | h
      · exact noDispatch_of_not_mem env s frame_chain kernel_name work_dims
          global_work_size local_work_size value rest hmiss hcomp h hnot
      · exact h

/-- C8, amended, at a concrete call: every insert is rejected, and handle 11
is bound all the same. -/
theorem runOclKernel_failed_population_witness :
    CacheMiss (scriptedEnv rejectingScript) [] 0 "kernelX" ∧
      CompileSucceeds (scriptedEnv rejectingScript) [] 0 "kernelX" ∧
      HandlesNonNull (exampleRun rejectingScript []).trace ∧
      PopulationFailedEntirely (exampleRun rejectingScript []).trace ∧
      (NoDispatch (exampleRun rejectingScript []).trace ↔
        (¬ AllCreated (exampleRun rejectingScript []).trace ∨
          "kernelX" ∉ enumeratedNames (scriptedEnv rejectingScript) [] 0 "kernelX")) :=
  ⟨by decide, by decide, by decide, by decide,
    (runOclKernel_failed_population (scriptedEnv rejectingScript) [] 0 "kernelX" 1
      (some [1024]) (some [64]) ⟨8, 5⟩ [] (by decide) (by decide) (by decide)
      (by decide)).1⟩

/-! ## Binding, validation and enqueue in lines 110-132 -/

/-- The codes of `argCalls` can be read back from the calls. -/
theorem argCalls_codes_inj (kernel : cl_kernel) (args : List KernelArg) :
    ∀ (i : Nat) (c1 c2 : List cl_int), c1.length ≤ args.length → c2.length ≤ args.length →
      argCalls kernel i args c1 = argCalls kernel i args c2 → c1 = c2 := by
  induction args with
  | nil =>
    intro i c1 c2 h1 h2 _
    have e1 : c1 = [] := List.length_eq_zero.mp (Nat.le_zero.mp h1)
    have e2 : c2 = [] := List.length_eq_zero.mp (Nat.le_zero.mp h2)
    rw [e1, e2]
  | cons a as ih =>
    intro i c1 c2 h1 h2 h
    cases c1 with
    | nil =>
      cases c2 with
      | nil => rfl
      | cons y ys => simp [argCalls] at h
    | cons x xs =>
      cases c2 with
      | nil => simp [argCalls] at h
      | cons y ys =>
        simp only [argCalls, List.cons.injEq, Event.clSetKernelArg.injEq, true_and] at h
        have := ih (i + 1) xs ys (by simpa using h1) (by simpa using h2) h.2
        rw [h.1, this]

/-- The handle of the calls of `argCalls` can be read back from the calls of a
successful binding of a non-empty argument list. -/
theorem argCalls_kernel_inj (k1 k2 : cl_kernel) (value : KernelArg) (rest : List KernelArg)
    (h : argCalls k1 0 (value :: rest) (List.replicate (value :: rest).length CL_SUCCESS)
      = argCalls k2 0 (value :: rest) (List.replicate (value :: rest).length CL_SUCCESS)) :
    k1 = k2 := by
  simp only [List.length_cons, List.replicate_succ, argCalls, List.cons.injEq,
    Event.clSetKernelArg.injEq] at h
  exact h.1.1

/-- The binding calls of a trace that is `argCalls` followed by calls of other
primitives. -/
theorem calls_setArg_argCalls_append (kernel : cl_kernel) (i : Nat) (args : List KernelArg)
    (codes : List cl_int) (tl : List Event) (htl : ∀ e ∈ tl, e.kind ≠ Kind.setArg) :
    calls Kind.setArg (argCalls kernel i args codes ++ tl) = argCalls kernel i args codes := by
  rw [calls_append, calls_setArg_argCalls, calls_eq_nil _ tl htl, List.append_nil]

/-- An enqueue in lines 110-132 is on the handle they were entered with, which
is then non-null, after a binding that succeeded for the whole argument list
and a validation that returned true. -/
theorem dispatchKernel_enqueued (env : Env σ) (frame_chain : FrameChainPtr)
    (kernel_name_cstr : String) (work_dims : cl_uint)
    (global_work_size local_work_size : WorkSize)
    (value : KernelArg) (rest : List KernelArg) (kernel : cl_kernel) (s : σ)
    (e : Event)
    (he : e ∈ (dispatchKernel env frame_chain kernel_name_cstr work_dims global_work_size
      local_work_size value rest kernel s).trace)
    (hk : e.kind = Kind.enqueue) :
    (∃ ok, e = Event.enqueueOclKernel frame_chain kernel_name_cstr kernel work_dims
        global_work_size local_work_size ok) ∧
      kernel ≠ nullKernel ∧
      BoundAll (dispatchKernel env frame_chain kernel_name_cstr work_dims global_work_size
        local_work_size value rest kernel s).trace kernel (value :: rest) ∧
      Validated (dispatchKernel env frame_chain kernel_name_cstr work_dims global_work_size
        local_work_size value rest kernel s).trace work_dims global_work_size
        local_work_size := by
  rcases dispatchKernel_shape env frame_chain kernel_name_cstr work_dims global_work_size
      local_work_size value rest kernel s with
    ⟨-, ht, -, -⟩ | ⟨hne, ⟨done, last, -, -, -, ht, -⟩ | ⟨ht, -⟩ | ⟨ok, ht, -⟩⟩
  · rw [ht] at he
    simp at he
  · rw [ht] at he
    obtain ⟨j, z, v, c, rfl⟩ := mem_argCalls kernel _ _ _ e he
    simp [Event.kind] at hk
  · rw [ht] at he
    rcases List.mem_append.mp he with h | h
    · obtain ⟨j, z, v, c, rfl⟩ := mem_argCalls kernel _ _ _ e h
      simp [Event.kind] at hk
    · simp only [List.mem_singleton] at h
      subst h
      simp [Event.kind] at hk
  · rw [ht]
    rw [ht] at he
    refine ⟨?_, hne, ?_, ?_⟩
    · rcases List.mem_append.mp he with h | h
      · obtain ⟨j, z, v, c, rfl⟩ := mem_argCalls kernel _ _ _ e h
        simp [Event.kind] at hk
      · simp only [List.mem_cons, List.mem_singleton, List.not_mem_nil, or_false] at h
        rcases h with rfl | rfl
        · simp [Event.kind] at hk
        · exact ⟨ok, rfl⟩
    · unfold BoundAll
      apply calls_setArg_argCalls_append
      intro x hx
      simp only [List.mem_cons, List.mem_singleton, List.not_mem_nil, or_false] at hx
      rcases hx with rfl | rfl <;> simp [Event.kind]
    · unfold Validated
      simp

/-- At most one enqueue in lines 110-132. -/
theorem dispatchKernel_enqueue_once (env : Env σ) (frame_chain : FrameChainPtr)
    (kernel_name_cstr : String) (work_dims : cl_uint)
    (global_work_size local_work_size : WorkSize)
    (value : KernelArg) (rest : List KernelArg) (kernel : cl_kernel) (s : σ) :
    (calls Kind.enqueue (dispatchKernel env frame_chain kernel_name_cstr work_dims
      global_work_size local_work_size value rest kernel s).trace).length ≤ 1 := by
  rcases dispatchKernel_shape env frame_chain kernel_name_cstr work_dims global_work_size
      local_work_size value rest kernel s with
    ⟨-, ht, -, -⟩ | ⟨hne, ⟨done, last, -, -, -, ht, -⟩ | ⟨ht, -⟩ | ⟨ok, ht, -⟩⟩
  · rw [ht]
    simp [calls]
  · rw [ht, calls_other_argCalls Kind.enqueue (by decide)]
    simp
  · rw [ht, calls_append, calls_other_argCalls Kind.enqueue (by decide)]
    simp [calls, Event.kind]
  · rw [ht, calls_append, calls_other_argCalls Kind.enqueue (by decide)]
    simp [calls, Event.kind]

/-- In lines 110-132, a binding that succeeded for the whole argument list is
followed by a validation. -/
theorem dispatchKernel_validates (env : Env σ) (frame_chain : FrameChainPtr)
    (kernel_name_cstr : String) (work_dims : cl_uint)
    (global_work_size local_work_size : WorkSize)
    (value : KernelArg) (rest : List KernelArg) (kernel k : cl_kernel) (s : σ)
    (hb : BoundAll (dispatchKernel env frame_chain kernel_name_cstr work_dims global_work_size
      local_work_size value rest kernel s).trace k (value :: rest)) :
    ∃ b, Event.validateNDrange work_dims global_work_size local_work_size b
      ∈ (dispatchKernel env frame_chain kernel_name_cstr work_dims global_work_size
        local_work_size value rest kernel s).trace := by
  unfold BoundAll at hb
  rcases dispatchKernel_shape env frame_chain kernel_name_cstr work_dims global_work_size
      local_work_size value rest kernel s with
    ⟨-, ht, -, -⟩ | ⟨hne, ⟨done, last, hdone, hlast, hlen, ht, -⟩ | ⟨ht, -⟩ | ⟨ok, ht, -⟩⟩
  · rw [ht] at hb
    simp [calls, argCalls, List.replicate_succ] at hb
  · exfalso
    rw [ht, calls_setArg_argCalls] at hb
    have hk : kernel = k := by
      cases done with
      | nil =>
        simp only [List.nil_append, argCalls, List.length_cons, List.replicate_succ,
          List.cons.injEq, Event.clSetKernelArg.injEq] at hb
        exact hb.1.1
      | cons d ds =>
        simp only [List.cons_append, argCalls, List.length_cons, List.replicate_succ,
          List.cons.injEq, Event.clSetKernelArg.injEq] at hb
        exact hb.1.1
    subst hk
    have hcodes := argCalls_codes_inj kernel (value :: rest) 0 _ _ hlen (by simp) hb
    have hmem : last ∈ List.replicate (value :: rest).length CL_SUCCESS := by
      rw [← hcodes]
      simp
    exact hlast (List.eq_of_mem_replicate hmem)
  · exact ⟨false, by rw [ht]; simp⟩
  · exact ⟨true, by rw [ht]; simp⟩

/-- In lines 110-132, a validation that returned true is followed by the
enqueue of the handle they were entered with, and was preceded by a binding
of that handle that succeeded for the whole argument list. -/
theorem dispatchKernel_enqueues (env : Env σ) (frame_chain : FrameChainPtr)
    (kernel_name_cstr : String) (work_dims : cl_uint)
    (global_work_size local_work_size : WorkSize)
    (value : KernelArg) (rest : List KernelArg) (kernel : cl_kernel) (s : σ)
    (hv : Validated (dispatchKernel env frame_chain kernel_name_cstr work_dims
      global_work_size local_work_size value rest kernel s).trace work_dims global_work_size
      local_work_size) :
    (∃ ok, Event.enqueueOclKernel frame_chain kernel_name_cstr kernel work_dims
        global_work_size local_work_size ok
      ∈ (dispatchKernel env frame_chain kernel_name_cstr work_dims global_work_size
        local_work_size value rest kernel s).trace) ∧
      BoundAll (dispatchKernel env frame_chain kernel_name_cstr work_dims global_work_size
        local_work_size value rest kernel s).trace kernel (value :: rest) := by
  unfold Validated at hv
  rcases dispatchKernel_shape env frame_chain kernel_name_cstr work_dims global_work_size
      local_work_size value rest kernel s with
    ⟨-, ht, -, -⟩ | ⟨hne, ⟨done, last, -, -, -, ht, -⟩ | ⟨ht, -⟩ | ⟨ok, ht, -⟩⟩
  · rw [ht] at hv
    simp at hv
  · rw [ht] at hv
    obtain ⟨j, z, v, c, h⟩ := mem_argCalls kernel _ _ _ _ hv
    cases h
  · rw [ht] at hv
    rcases List.mem_append.mp hv with h | h
    · obtain ⟨j, z, v, c, h⟩ := mem_argCalls kernel _ _ _ _ h
      cases h
    · simp at h
  · rw [ht]
    refine ⟨⟨ok, by simp⟩, ?_⟩
    unfold BoundAll
    apply calls_setArg_argCalls_append
    intro x hx
    simp only [List.mem_cons, List.mem_singleton, List.not_mem_nil, or_false] at hx
    rcases hx with rfl | rfl <;> simp [Event.kind]

/-! ## C7: what `insertKernelToPool` returns does not matter -/

/-- Argument binding does not call `insertKernelToPool`. -/
theorem setKernelArg_withInsertResult (env : Env σ)
    (f : σ → cl_context → String → String → cl_kernel → Bool) (kernel : cl_kernel)
    (rest : List KernelArg) :
    ∀ (i : Nat) (value : KernelArg) (s : σ),
      setKernelArg (withInsertResult env f) kernel i value rest s
        = setKernelArg env kernel i value rest s := by
  induction rest with
  | nil => intro i value s; rfl
  | cons r rs ih =>
    intro i value s
    simp only [setKernelArg, ih]
    rfl

/-- Lines 110-132 do not call `insertKernelToPool`. -/
theorem dispatchKernel_withInsertResult (env : Env σ)
    (f : σ → cl_context → String → String → cl_kernel → Bool) (frame_chain : FrameChainPtr)
    (kernel_name_cstr : String) (work_dims : cl_uint)
    (global_work_size local_work_size : WorkSize)
    (value : KernelArg) (rest : List KernelArg) (kernel : cl_kernel) (s : σ) :
    dispatchKernel (withInsertResult env f) frame_chain kernel_name_cstr work_dims
        global_work_size local_work_size value rest kernel s
      = dispatchKernel env frame_chain kernel_name_cstr work_dims global_work_size
        local_work_size value rest kernel s := by
  simp only [dispatchKernel, setKernelArg_withInsertResult]
  rfl

/-- The loop of lines 90-108 ignores what `insertKernelToPool` returns: the
selected handle, the final state and, up to the recorded insert results, the
calls are the same whatever it reports. -/
theorem createKernels_withInsertResult (env : Env σ)
    (f : σ → cl_context → String → String → cl_kernel → Bool) (program : cl_program)
    (context : cl_context) (project_name kernel_name : String) (names : List String) :
    ∀ (kernel : cl_kernel) (s : σ),
      (createKernels (withInsertResult env f) program context project_name kernel_name names
          kernel s).1
        = (createKernels env program context project_name kernel_name names kernel s).1 ∧
      (createKernels (withInsertResult env f) program context project_name kernel_name names
          kernel s).2.2
        = (createKernels env program context project_name kernel_name names kernel s).2.2 ∧
      (createKernels (withInsertResult env f) program context project_name kernel_name names
          kernel s).2.1.map Event.eraseInsertResult
        = (createKernels env program context project_name kernel_name names kernel
            s).2.1.map Event.eraseInsertResult := by
  induction names with
  | nil => intro kernel s; exact ⟨rfl, rfl, rfl⟩
  | cons n ns ih =>
    intro kernel s
    have hcreate : (withInsertResult env f).clCreateKernel = env.clCreateKernel := rfl
    have hins : ∀ x c p m k, ((withInsertResult env f).insertKernelToPool x c p m k).2
        = (env.insertKernelToPool x c p m k).2 := fun _ _ _ _ _ => rfl
    by_cases hc : (env.clCreateKernel s program n).1.2 = CL_SUCCESS
    · obtain ⟨h1, h2, h3⟩ := ih
        (if n = kernel_name then (env.clCreateKernel s program n).1.1 else kernel)
        (env.insertKernelToPool (env.clCreateKernel s program n).2 context project_name n
          (env.clCreateKernel s program n).1.1).2
      refine ⟨?_, ?_, ?_⟩
      · simp only [createKernels, hcreate, hins, hc, ne_eq, not_true_eq_false, if_false]
        exact h1
      · simp only [createKernels, hcreate, hins, hc, ne_eq, not_true_eq_false, if_false]
        exact h2
      · simp only [createKernels, hcreate, hins, hc, ne_eq, not_true_eq_false, if_false,
          List.map_cons, h3, Event.eraseInsertResult]
    · refine ⟨?_, ?_, ?_⟩ <;>
        simp only [createKernels, hcreate, hc, ne_eq, not_false_eq_true, if_true]

/-- The whole call ignores what `insertKernelToPool` returns. -/
theorem runOclKernel_withInsertResult (env : Env σ)
    (f : σ → cl_context → String → String → cl_kernel → Bool) (s : σ)
    (frame_chain : FrameChainPtr) (kernel_name : String) (work_dims : cl_uint)
    (global_work_size local_work_size : WorkSize) (value : KernelArg)
    (rest : List KernelArg) :
    (runOclKernel (withInsertResult env f) s frame_chain kernel_name work_dims
        global_work_size local_work_size value rest).exit
      = (runOclKernel env s frame_chain kernel_name work_dims global_work_size
        local_work_size value rest).exit ∧
    (runOclKernel (withInsertResult env f) s frame_chain kernel_name work_dims
        global_work_size local_work_size value rest).state
      = (runOclKernel env s frame_chain kernel_name work_dims global_work_size
        local_work_size value rest).state ∧
    (runOclKernel (withInsertResult env f) s frame_chain kernel_name work_dims
        global_work_size local_work_size value rest).trace.map Event.eraseInsertResult
      = (runOclKernel env s frame_chain kernel_name work_dims global_work_size
        local_work_size value rest).trace.map Event.eraseInsertResult := by
  have h1 : (withInsertResult env f).getContext = env.getContext := rfl
  have h2 : (withInsertResult env f).getProjectName = env.getProjectName := rfl
  have h3 : (withInsertResult env f).getProgram = env.getProgram := rfl
  have h4 : (withInsertResult env f).getKernelFromPool = env.getKernelFromPool := rfl
  have h5 : (withInsertResult env f).compileOclKernels = env.compileOclKernels := rfl
  have h6 : (withInsertResult env f).getKernelNames = env.getKernelNames := rfl
  obtain ⟨k1, k2, k3⟩ := createKernels_withInsertResult env f
    (compiledProgram env s frame_chain kernel_name) (env.getContext s frame_chain)
    (env.getProjectName s frame_chain) kernel_name
    (enumeratedNames env s frame_chain kernel_name)
    nullKernel (enumerated env s frame_chain kernel_name).2
  unfold enumeratedNames enumerated compiledProgram compiled poolLookup at k1 k2 k3
  simp only [runOclKernel, h1, h2, h3, h4, h5, h6, dispatchKernel_withInsertResult]
  by_cases hm : (env.getKernelFromPool s (env.getContext s frame_chain)
      (env.getProjectName s frame_chain) kernel_name).1 = nullKernel
  · by_cases hc : (env.compileOclKernels (env.getKernelFromPool s (env.getContext s frame_chain)
        (env.getProjectName s frame_chain) kernel_name).2 frame_chain).1 = false
    · simp only [hm, hc, if_true, and_self]
    · simp only [Bool.not_eq_false] at hc
      simp only [hm, hc, if_true]
      rw [k1, k2]
      cases hk : (createKernels env
        (env.getProgram (env.compileOclKernels (env.getKernelFromPool s
          (env.getContext s frame_chain) (env.getProjectName s frame_chain) kernel_name).2
          frame_chain).2 frame_chain)
        (env.getContext s frame_chain) (env.getProjectName s frame_chain) kernel_name _ _ _).1
        with
      | none => simp [k3]
      | some kernel => simp [k3]
  · simp only [hm, if_false, and_self]

/-- In a trace made of opening calls, completed rounds and lines 110-132, the
only handle bound or enqueued is the one lines 110-132 were entered with. -/
theorem usedKernel_after_rounds (env : Env σ) (s : σ) (frame_chain : FrameChainPtr)
    (kernel_name : String) (work_dims : cl_uint) (global_work_size local_work_size : WorkSize)
    (value : KernelArg) (rest : List KernelArg) (program : cl_program) (context : cl_context)
    (project_name : String) (cs : List Created) (kernel : cl_kernel) (s1 : σ) :
    ∀ e ∈ missOpening env s frame_chain kernel_name
        ++ populationTrace program context project_name cs
        ++ (dispatchKernel env frame_chain kernel_name work_dims global_work_size
            local_work_size value rest kernel s1).trace,
      ∀ k, e.usedKernel = some k → k = kernel := by
  intro e he k hk
  rcases List.mem_append.mp he with he | he
  · have hnd := noDispatch_opening_rounds env s frame_chain kernel_name program context
      project_name cs e he
    cases e <;> simp [Event.kind] at hnd <;> simp [Event.usedKernel] at hk
  · rcases mem_dispatchKernel env frame_chain kernel_name work_dims global_work_size
      local_work_size value rest _ _ e he with
      ⟨j, z, v, c, rfl⟩ | ⟨b, rfl⟩ | ⟨ok, rfl⟩ <;> simp [Event.usedKernel] at hk <;>
      exact hk.symm

/-- The binding calls of a trace made of opening calls, completed rounds and
a tail are those of the tail. -/
theorem calls_setArg_after_rounds (env : Env σ) (s : σ) (frame_chain : FrameChainPtr)
    (kernel_name : String) (program : cl_program) (context : cl_context)
    (project_name : String) (cs : List Created) (b : List Event) :
    calls Kind.setArg (missOpening env s frame_chain kernel_name
        ++ populationTrace program context project_name cs ++ b)
      = calls Kind.setArg b := by
  rw [calls_append, calls_eq_nil Kind.setArg _ (fun e he =>
    (noDispatch_opening_rounds env s frame_chain kernel_name program context project_name cs
      e he).1)]
  rfl

/-- C7. Insert failure does not abort.  In a call that misses the cache,
compiles successfully and in which no creation fails: (1) whatever the calls
of `insertKernelToPool` return, there is exactly one of them per enumerated
name, in enumeration order; (2) if the requested name is enumerated (created
handles being non-null), a handle created for the requested name is the one
dispatched: binding starts on it at index 0, no other handle is bound or
enqueued, validation follows a binding that succeeded for all arguments, and
the enqueue of that handle follows a validation that returned true; (3) the
call runs exactly as it would if `insertKernelToPool` had reported anything
else, for instance success every time: same exit, same final state, and the
same calls up to the recorded insert results. -/
theorem runOclKernel_insert_failure_tolerated (env : Env σ) (s : σ)
    (frame_chain : FrameChainPtr) (kernel_name : String) (work_dims : cl_uint)
    (global_work_size local_work_size : WorkSize) (value : KernelArg)
    (rest : List KernelArg)
    (hmiss : CacheMiss env s frame_chain kernel_name)
    (hcomp : CompileSucceeds env s frame_chain kernel_name)
    (hall : AllCreated (runOclKernel env s frame_chain kernel_name work_dims global_work_size
      local_work_size value rest).trace) :
    (∃ cs : List Created,
      enumeratedNames env s frame_chain kernel_name = cs.map Created.name ∧
      calls Kind.insert (runOclKernel env s frame_chain kernel_name work_dims
          global_work_size local_work_size value rest).trace
        = cs.map (Created.insertEvent (env.getContext s frame_chain)
            (env.getProjectName s frame_chain))) ∧
    (kernel_name ∈ enumeratedNames env s frame_chain kernel_name →
      HandlesNonNull (runOclKernel env s frame_chain kernel_name work_dims global_work_size
        local_work_size value rest).trace →
      ∃ h, h ≠ nullKernel ∧
        (∃ ok, [Event.clCreateKernel (compiledProgram env s frame_chain kernel_name)
              kernel_name h CL_SUCCESS,
            Event.insertKernelToPool (env.getContext s frame_chain)
              (env.getProjectName s frame_chain) kernel_name h ok]
          <:+: (runOclKernel env s frame_chain kernel_name work_dims global_work_size
            local_work_size value rest).trace) ∧
        (∃ c, Event.clSetKernelArg h 0 value.size value.value c
          ∈ (runOclKernel env s frame_chain kernel_name work_dims global_work_size
            local_work_size value rest).trace) ∧
        (∀ e ∈ (runOclKernel env s frame_chain kernel_name work_dims global_work_size
            local_work_size value rest).trace,
          ∀ k, e.usedKernel = some k → k = h) ∧
        (BoundAll (runOclKernel env s frame_chain kernel_name work_dims global_work_size
            local_work_size value rest).trace h (value :: rest) →
          ∃ b, Event.validateNDrange work_dims global_work_size local_work_size b
            ∈ (runOclKernel env s frame_chain kernel_name work_dims global_work_size
              local_work_size value rest).trace) ∧
        (Validated (runOclKernel env s frame_chain kernel_name work_dims global_work_size
            local_work_size value rest).trace work_dims global_work_size local_work_size →
          ∃ ok, Event.enqueueOclKernel frame_chain kernel_name h work_dims global_work_size
              local_work_size ok
            ∈ (runOclKernel env s frame_chain kernel_name work_dims global_work_size
              local_work_size value rest).trace)) ∧
    (∀ f : σ → cl_context → String → String → cl_kernel → Bool,
      (runOclKernel (withInsertResult env f) s frame_chain kernel_name work_dims
          global_work_size local_work_size value rest).exit
        = (runOclKernel env s frame_chain kernel_name work_dims global_work_size
          local_work_size value rest).exit ∧
      (runOclKernel (withInsertResult env f) s frame_chain kernel_name work_dims
          global_work_size local_work_size value rest).state
        = (runOclKernel env s frame_chain kernel_name work_dims global_work_size
          local_work_size value rest).state ∧
      (runOclKernel (withInsertResult env f) s frame_chain kernel_name work_dims
          global_work_size local_work_size value rest).trace.map Event.eraseInsertResult
        = (runOclKernel env s frame_chain kernel_name work_dims global_work_size
          local_work_size value rest).trace.map Event.eraseInsertResult) := by
  refine ⟨?_, ?_, fun f => runOclKernel_withInsertResult env f s frame_chain kernel_name
    work_dims global_work_size local_work_size value rest⟩
  · obtain ⟨cs, hn, ht, -, -⟩ := runOclKernel_all_created env s frame_chain kernel_name
      work_dims global_work_size local_work_size value rest hmiss hcomp hall
    refine ⟨cs, hn, ?_⟩
    rw [ht]
    apply calls_insert_rounds
    intro e he
    rcases mem_dispatchKernel env frame_chain kernel_name work_dims global_work_size
      local_work_size value rest _ _ e he with
      ⟨j, z, v, c, rfl⟩ | ⟨b, rfl⟩ | ⟨ok, rfl⟩ <;> simp [Event.kind]
  · intro hin hnn
    obtain ⟨cs, c, -, hc, hname, hne, -, ht, -, -⟩ := runOclKernel_known_name env s
      frame_chain kernel_name work_dims global_work_size local_work_size value rest hmiss
      hcomp hall hnn hin
    rw [ht]
    refine ⟨c.kernel, hne, ?_, ?_, ?_, ?_, ?_⟩
    · obtain ⟨x, y, hxy⟩ := round_adjacent (compiledProgram env s frame_chain kernel_name)
        (env.getContext s frame_chain) (env.getProjectName s frame_chain) cs c hc
      refine ⟨c.inserted, missOpening env s frame_chain kernel_name ++ x,
        y ++ (dispatchKernel env frame_chain kernel_name work_dims global_work_size
          local_work_size value rest c.kernel
          (population env s frame_chain kernel_name).2.2).trace, ?_⟩
      rw [← hxy, ← hname]
      simp
    · obtain ⟨code, tl, hd⟩ := dispatchKernel_first env frame_chain kernel_name work_dims
        global_work_size local_work_size value rest c.kernel
        (population env s frame_chain kernel_name).2.2 hne
      exact ⟨code, by rw [hd]; simp⟩
    · exact usedKernel_after_rounds env s frame_chain kernel_name work_dims global_work_size
        local_work_size value rest _ _ _ cs c.kernel _
    · intro hb
      unfold BoundAll at hb
      rw [calls_setArg_after_rounds] at hb
      obtain ⟨b, hmem⟩ := dispatchKernel_validates env frame_chain kernel_name work_dims
        global_work_size local_work_size value rest c.kernel c.kernel
        (population env s frame_chain kernel_name).2.2 hb
      exact ⟨b, List.mem_append_right _ hmem⟩
    · intro hv
      unfold Validated at hv
      rcases List.mem_append.mp hv with h | h
      · have := (noDispatch_opening_rounds env s frame_chain kernel_name _ _ _ cs _ h).2.1
        simp [Event.kind] at this
      · obtain ⟨⟨ok, hmem⟩, -⟩ := dispatchKernel_enqueues env frame_chain kernel_name
          work_dims global_work_size local_work_size value rest c.kernel
          (population env s frame_chain kernel_name).2.2 h
        exact ⟨ok, List.mem_append_right _ hmem⟩

/-- C7 at a concrete call: the pool already holds `kernelY`, so that the
insert for `kernelY` fails; `kernelX` is dispatched all the same. -/
theorem runOclKernel_insert_failure_tolerated_witness :
    CacheMiss (scriptedEnv goodScript) halfWarmPool 0 "kernelX" ∧
      CompileSucceeds (scriptedEnv goodScript) halfWarmPool 0 "kernelX" ∧
      AllCreated (exampleRun goodScript halfWarmPool).trace ∧
      (exampleRun goodScript halfWarmPool).trace
        = [Event.getKernelFromPool 1 "projA" "kernelX" 0,
           Event.compileOclKernels 0 true,
           Event.getKernelNames 7 ["kernelX", "kernelY"],
           Event.clCreateKernel 7 "kernelX" 11 0,
           Event.insertKernelToPool 1 "projA" "kernelX" 11 true,
           Event.clCreateKernel 7 "kernelY" 12 0,
           Event.insertKernelToPool 1 "projA" "kernelY" 12 false,
           Event.clSetKernelArg 11 0 8 5 0,
           Event.validateNDrange 1 (some [1024]) (some [64]) true,
           Event.enqueueOclKernel 0 "kernelX" 11 1 (some [1024]) (some [64]) true] ∧
      ∃ cs : List Created,
        enumeratedNames (scriptedEnv goodScript) halfWarmPool 0 "kernelX"
          = cs.map Created.name ∧
        calls Kind.insert (exampleRun goodScript halfWarmPool).trace
          = cs.map (Created.insertEvent 1 "projA") :=
  ⟨by decide, by decide, by decide, by decide,
    (runOclKernel_insert_failure_tolerated (scriptedEnv goodScript) halfWarmPool 0 "kernelX"
      1 (some [1024]) (some [64]) ⟨8, 5⟩ [] (by decide) (by decide) (by decide)).1⟩

/-! ## C2: when the kernel is enqueued -/

/-- Every call is some calls of lookup, compilation, enumeration, creation and
insert, followed either by nothing or by lines 110-132 on a handle that, if
non-null, was obtained for the requested name in those calls. -/
theorem runOclKernel_decompose (env : Env σ) (s : σ) (frame_chain : FrameChainPtr)
    (kernel_name : String) (work_dims : cl_uint) (global_work_size local_work_size : WorkSize)
    (value : KernelArg) (rest : List KernelArg) :
    ∃ pre : List Event, NoDispatch pre ∧
      ((runOclKernel env s frame_chain kernel_name work_dims global_work_size
          local_work_size value rest).trace = pre ∨
        ∃ (kernel : cl_kernel) (s1 : σ),
          (runOclKernel env s frame_chain kernel_name work_dims global_work_size
              local_work_size value rest).trace
            = pre ++ (dispatchKernel env frame_chain kernel_name work_dims global_work_size
                local_work_size value rest kernel s1).trace ∧
          (kernel ≠ nullKernel →
            Obtained pre (env.getContext s frame_chain) (env.getProjectName s frame_chain)
              kernel_name kernel)) := by
  by_cases hmiss : CacheMiss env s frame_chain kernel_name
  · by_cases hcomp : CompileSucceeds env s frame_chain kernel_name
    · obtain ⟨cs, ⟨-, ht, -, -⟩ | ⟨n, h, code, tl, -, -, ht, -, -⟩⟩ :=
        runOclKernel_populated env s frame_chain kernel_name work_dims global_work_size
          local_work_size value rest hmiss hcomp
      · refine ⟨_, noDispatch_opening_rounds env s frame_chain kernel_name
          (compiledProgram env s frame_chain kernel_name) (env.getContext s frame_chain)
          (env.getProjectName s frame_chain) cs, Or.inr ⟨_, _, ht, ?_⟩⟩
        intro hne
        have hin : kernel_name ∈ cs.map Created.name := by
          by_contra hnot
          exact hne (selectKernel_of_not_mem kernel_name cs nullKernel hnot)
        obtain ⟨c, hc, hname, hk⟩ := selectKernel_of_mem kernel_name cs nullKernel hin
        right
        refine ⟨compiledProgram env s frame_chain kernel_name, ?_⟩
        apply List.mem_append_right
        rw [← hk, ← hname]
        exact (mem_populationTrace _ _ _ _ cs).mpr ⟨c, hc, Or.inl rfl⟩
      · refine ⟨_, ?_, Or.inl ht⟩
        intro e he
        rcases List.mem_append.mp he with he | he
        · exact noDispatch_opening_rounds env s frame_chain kernel_name _ _ _ cs e he
        · simp only [List.mem_singleton] at he
          subst he
          simp [Event.kind]
    · obtain ⟨ht, -, -⟩ := runOclKernel_compileFailed env s frame_chain kernel_name work_dims
        global_work_size local_work_size value rest hmiss hcomp
      refine ⟨_, ?_, Or.inl ht⟩
      intro e he
      simp only [List.mem_cons, List.mem_singleton, List.not_mem_nil, or_false] at he
      rcases he with rfl | rfl <;> simp [Event.kind]
  · obtain ⟨ht, -, -⟩ := runOclKernel_hit env s frame_chain kernel_name work_dims
      global_work_size local_work_size value rest hmiss
    refine ⟨[Event.getKernelFromPool (env.getContext s frame_chain)
      (env.getProjectName s frame_chain) kernel_name
      (poolLookup env s frame_chain kernel_name).1], ?_, Or.inr ⟨_, _, ht, ?_⟩⟩
    · intro e he
      simp only [List.mem_singleton] at he
      subst he
      simp [Event.kind]
    · intro _
      left
      simp

/-- C2. In every call of `runOclKernel`, `enqueueOclKernel` is invoked at most
once; it is invoked on a handle if and only if that handle is non-null, was
obtained for the requested name (returned by the pool lookup, or created with
`CL_SUCCESS` under that name after a miss), `setKernelArg` returned
`CL_SUCCESS` for the whole argument list on it, and `validateNDrange` returned
true for the caller's `work_dims`, `global_work_size` and `local_work_size`;
and every invocation receives the caller's frame chain, kernel name and
unchanged geometry. -/
theorem runOclKernel_enqueue_iff (env : Env σ) (s : σ) (frame_chain : FrameChainPtr)
    (kernel_name : String) (work_dims : cl_uint) (global_work_size local_work_size : WorkSize)
    (value : KernelArg) (rest : List KernelArg) :
    (calls Kind.enqueue (runOclKernel env s frame_chain kernel_name work_dims
        global_work_size local_work_size value rest).trace).length ≤ 1 ∧
    (∀ kernel : cl_kernel,
      (∃ ok, Event.enqueueOclKernel frame_chain kernel_name kernel work_dims global_work_size
          local_work_size ok
        ∈ (runOclKernel env s frame_chain kernel_name work_dims global_work_size
          local_work_size value rest).trace) ↔
      (kernel ≠ nullKernel ∧
        Obtained (runOclKernel env s frame_chain kernel_name work_dims global_work_size
            local_work_size value rest).trace (env.getContext s frame_chain)
          (env.getProjectName s frame_chain) kernel_name kernel ∧
        BoundAll (runOclKernel env s frame_chain kernel_name work_dims global_work_size
            local_work_size value rest).trace kernel (value :: rest) ∧
        Validated (runOclKernel env s frame_chain kernel_name work_dims global_work_size
            local_work_size value rest).trace work_dims global_work_size local_work_size)) ∧
    (∀ e ∈ (runOclKernel env s frame_chain kernel_name work_dims global_work_size
        local_work_size value rest).trace,
      e.kind = Kind.enqueue →
        ∃ kernel ok, e = Event.enqueueOclKernel frame_chain kernel_name kernel work_dims
          global_work_size local_work_size ok) := by
  obtain ⟨pre, hpre, ht | ⟨kd, s1, ht, hob⟩⟩ := runOclKernel_decompose env s frame_chain
    kernel_name work_dims global_work_size local_work_size value rest
  · rw [ht]
    refine ⟨?_, ?_, ?_⟩
    · rw [calls_eq_nil Kind.enqueue pre (fun e he => (hpre e he).2.2)]
      simp
    · intro kernel
      constructor
      · rintro ⟨ok, hmem⟩
        have := (hpre _ hmem).2.2
        simp [Event.kind] at this
      · rintro ⟨-, -, -, hv⟩
        have := (hpre _ hv).2.1
        simp [Event.kind] at this
    · intro e he hk
      exact absurd hk (hpre e he).2.2
  · rw [ht]
    have hsplit : ∀ e, e ∈ pre ++ (dispatchKernel env frame_chain kernel_name work_dims
        global_work_size local_work_size value rest kd s1).trace →
        (e.kind = Kind.validate ∨ e.kind = Kind.enqueue) →
        e ∈ (dispatchKernel env frame_chain kernel_name work_dims
          global_work_size local_work_size value rest kd s1).trace := by
      intro e he hk
      rcases List.mem_append.mp he with h | h
      · rcases hk with hk | hk
        · exact absurd hk (hpre e h).2.1
        · exact absurd hk (hpre e h).2.2
      · exact h
    have hbound : ∀ k, BoundAll (pre ++ (dispatchKernel env frame_chain kernel_name work_dims
          global_work_size local_work_size value rest kd s1).trace) k (value :: rest) ↔
        BoundAll (dispatchKernel env frame_chain kernel_name work_dims
          global_work_size local_work_size value rest kd s1).trace k (value :: rest) := by
      intro k
      unfold BoundAll
      rw [calls_append, calls_eq_nil Kind.setArg pre (fun e he => (hpre e he).1),
        List.nil_append]
    refine ⟨?_, ?_, ?_⟩
    · rw [calls_append, calls_eq_nil Kind.enqueue pre (fun e he => (hpre e he).2.2),
        List.nil_append]
      exact dispatchKernel_enqueue_once env frame_chain kernel_name work_dims
        global_work_size local_work_size value rest kd s1
    · intro kernel
      constructor
      · rintro ⟨ok, hmem⟩
        have hd := hsplit _ hmem (Or.inr rfl)
        obtain ⟨⟨ok1, heq⟩, hne, hb, hv⟩ := dispatchKernel_enqueued env frame_chain
          kernel_name work_dims global_work_size local_work_size value rest kd s1 _ hd rfl
        have hk : kernel = kd := by
          simp only [Event.enqueueOclKernel.injEq, true_and] at heq
          exact heq.1
        subst hk
        refine ⟨hne, ?_, (hbound kernel).mpr hb, List.mem_append_right _ hv⟩
        rcases hob hne with h | ⟨program, h⟩
        · exact Or.inl (List.mem_append_left _ h)
        · exact Or.inr ⟨program, List.mem_append_left _ h⟩
      · rintro ⟨-, -, hb, hv⟩
        have hvd := hsplit _ hv (Or.inl rfl)
        obtain ⟨⟨ok, hmem⟩, hbd⟩ := dispatchKernel_enqueues env frame_chain kernel_name
          work_dims global_work_size local_work_size value rest kd s1 hvd
        have hb1 := (hbound kernel).mp hb
        unfold BoundAll at hb1 hbd
        rw [hb1] at hbd
        have hk := argCalls_kernel_inj kernel kd value rest hbd
        subst hk
        exact ⟨ok, List.mem_append_right _ hmem⟩
    · intro e he hk
      have hd := hsplit e he (Or.inr hk)
      obtain ⟨⟨ok, heq⟩, -, -, -⟩ := dispatchKernel_enqueued env frame_chain
        kernel_name work_dims global_work_size local_work_size value rest kd s1 e hd hk
      exact ⟨kd, ok, heq⟩

/-! ## C10: the dispatched handle is the cached handle -/

/-- The loop of lines 90-108 over a pool model.  If the requested name is not
among the names, its entry is left as it was and the local `kernel` keeps its
value.  If it is among them, the names are distinct, the entry is absent and
the loop runs to its end, then the selected handle was created for the
requested name with `CL_SUCCESS`, its insert returned true, and it is the
handle stored under the requested name afterwards. -/
theorem createKernels_pool (env : Env σ) (pool : σ → KernelPool) (hm : PoolModel env pool)
    (program : cl_program) (context : cl_context) (project_name kernel_name : String)
    (names : List String) :
    ∀ (kernel : cl_kernel) (s : σ),
      (kernel_name ∉ names →
        (pool (createKernels env program context project_name kernel_name names kernel
            s).2.2).find (context, project_name, kernel_name)
          = (pool s).find (context, project_name, kernel_name) ∧
        ((createKernels env program context project_name kernel_name names kernel s).1 ≠ none →
          (createKernels env program context project_name kernel_name names kernel s).1
            = some kernel)) ∧
      (kernel_name ∈ names → names.Nodup →
        (pool s).find (context, project_name, kernel_name) = none →
        (createKernels env program context project_name kernel_name names kernel s).1 ≠ none →
        ∃ h,
          (createKernels env program context project_name kernel_name names kernel s).1
            = some h ∧
          (pool (createKernels env program context project_name kernel_name names kernel
            s).2.2).find (context, project_name, kernel_name) = some h ∧
          Event.clCreateKernel program kernel_name h CL_SUCCESS
            ∈ (createKernels env program context project_name kernel_name names kernel
              s).2.1 ∧
          Event.insertKernelToPool context project_name kernel_name h true
            ∈ (createKernels env program context project_name kernel_name names kernel
              s).2.1) := by
  induction names with
  | nil =>
    intro kernel s
    exact ⟨fun _ => ⟨rfl, fun _ => rfl⟩, fun h => absurd h (List.not_mem_nil _)⟩
  | cons n ns ih =>
    intro kernel s
    by_cases hc : (env.clCreateKernel s program n).1.2 = CL_SUCCESS
    · have hstep := ih (if n = kernel_name then (env.clCreateKernel s program n).1.1 else kernel)
        (env.insertKernelToPool (env.clCreateKernel s program n).2 context project_name n
          (env.clCreateKernel s program n).1.1).2
      have hpool : pool (env.insertKernelToPool (env.clCreateKernel s program n).2 context
          project_name n (env.clCreateKernel s program n).1.1).2
          = ((pool s).insert context project_name n (env.clCreateKernel s program n).1.1).2 := by
        rw [hm.insert_pool, hm.create_pool]
      have hret : (env.insertKernelToPool (env.clCreateKernel s program n).2 context
          project_name n (env.clCreateKernel s program n).1.1).1
          = ((pool s).insert context project_name n (env.clCreateKernel s program n).1.1).1 := by
        rw [hm.insert_ret, hm.create_pool]
      simp only [createKernels, hc, ne_eq, not_true_eq_false, if_false]
      constructor
      · intro hnot
        simp only [List.mem_cons, not_or] at hnot
        have hne : n ≠ kernel_name := fun e => hnot.1 e.symm
        obtain ⟨h1, h2⟩ := hstep.1 hnot.2
        rw [hpool, KernelPool.find_insert_other _ _ _ _ _ _ hne] at h1
        simp only [hne, if_false] at h1 h2 ⊢
        exact ⟨h1, h2⟩
      · intro hin hnodup habsent hsome
        have hnd := List.nodup_cons.mp hnodup
        by_cases hn : n = kernel_name
        · subst hn
          obtain ⟨h1, h2⟩ := hstep.1 hnd.1
          simp only [if_true] at h2
          rw [hpool, KernelPool.insert_of_absent _ _ _ _ _ habsent,
            KernelPool.find_cons_self] at h1
          rw [KernelPool.insert_of_absent _ _ _ _ _ habsent] at hret
          refine ⟨(env.clCreateKernel s program n).1.1, ?_, h1, ?_, ?_⟩
          · simp only [if_true]
            exact h2 (by simpa using hsome)
          · exact List.mem_cons_self _ _
          · rw [hret]
            exact List.mem_cons_of_mem _ (List.mem_cons_self _ _)
        · have hin1 : kernel_name ∈ ns := by
            rcases List.mem_cons.mp hin with h | h
            · exact absurd h.symm hn
            · exact h
          have habs1 : (pool (env.insertKernelToPool (env.clCreateKernel s program n).2 context
              project_name n (env.clCreateKernel s program n).1.1).2).find
              (context, project_name, kernel_name) = none := by
            rw [hpool, KernelPool.find_insert_other _ _ _ _ _ _ hn]
            exact habsent
          obtain ⟨h, h1, h2, h3, h4⟩ := hstep.2 hin1 hnd.2 habs1 hsome
          exact ⟨h, h1, h2, List.mem_cons_of_mem _ (List.mem_cons_of_mem _ h3),
            List.mem_cons_of_mem _ (List.mem_cons_of_mem _ h4)⟩
    · simp only [createKernels, hc, ne_eq, not_false_eq_true, if_true]
      constructor
      · intro _
        exact ⟨by rw [hm.create_pool], fun h => absurd trivial h⟩
      · intro _ _ _ h
        exact absurd trivial h

/-- The loop of lines 90-108 calls creation and insert only, and has recorded
a failed creation when it leaves the function. -/
theorem createKernels_events (env : Env σ) (program : cl_program) (context : cl_context)
    (project_name kernel_name : String) (names : List String) (kernel : cl_kernel) (s : σ) :
    (∀ e ∈ (createKernels env program context project_name kernel_name names kernel s).2.1,
      e.kind = Kind.create ∨ e.kind = Kind.insert) ∧
    ((createKernels env program context project_name kernel_name names kernel s).1 = none →
      ¬ AllCreated (createKernels env program context project_name kernel_name names kernel
        s).2.1) := by
  obtain ⟨cs, ⟨-, hk, ht⟩ | ⟨n, h, code, tl, -, hcode, hk, ht⟩⟩ :=
    createKernels_shape env program context project_name kernel_name names kernel s
  · rw [ht, hk]
    refine ⟨?_, fun h => by cases h⟩
    intro e he
    obtain ⟨c, -, rfl | rfl⟩ := (mem_populationTrace program context project_name e cs).mp he
    · exact Or.inl rfl
    · exact Or.inr rfl
  · rw [ht]
    refine ⟨?_, fun _ hall => ?_⟩
    · intro e he
      rcases List.mem_append.mp he with he | he
      · obtain ⟨c, -, rfl | rfl⟩ :=
          (mem_populationTrace program context project_name e cs).mp he
        · exact Or.inl rfl
        · exact Or.inr rfl
      · simp only [List.mem_singleton] at he
        subst he
        exact Or.inl rfl
    · have := hall (Event.clCreateKernel program n h code) (by simp)
      simp [Event.createFailed, hcode] at this

/-- A call that misses and compiles, in terms of the loop: the opening calls,
the calls of the loop and, when the loop runs to its end, lines 110-132 on the
handle it selected. -/
theorem runOclKernel_miss_unfold (env : Env σ) (s : σ) (frame_chain : FrameChainPtr)
    (kernel_name : String) (work_dims : cl_uint) (global_work_size local_work_size : WorkSize)
    (value : KernelArg) (rest : List KernelArg)
    (hmiss : CacheMiss env s frame_chain kernel_name)
    (hcomp : CompileSucceeds env s frame_chain kernel_name) :
    ((population env s frame_chain kernel_name).1 = none ∧
      (runOclKernel env s frame_chain kernel_name work_dims global_work_size
          local_work_size value rest).trace
        = missOpening env s frame_chain kernel_name
          ++ (population env s frame_chain kernel_name).2.1) ∨
    (∃ k, (population env s frame_chain kernel_name).1 = some k ∧
      (runOclKernel env s frame_chain kernel_name work_dims global_work_size
          local_work_size value rest).trace
        = missOpening env s frame_chain kernel_name
          ++ (population env s frame_chain kernel_name).2.1
          ++ (dispatchKernel env frame_chain kernel_name work_dims global_work_size
              local_work_size value rest k
              (population env s frame_chain kernel_name).2.2).trace ∧
      (runOclKernel env s frame_chain kernel_name work_dims global_work_size
          local_work_size value rest).state
        = (dispatchKernel env frame_chain kernel_name work_dims global_work_size
              local_work_size value rest k
              (population env s frame_chain kernel_name).2.2).state) := by
  have hmiss1 := hmiss
  have hcomp1 := hcomp
  unfold CacheMiss poolLookup at hmiss1
  unfold CompileSucceeds compiled poolLookup at hcomp1
  cases hk : (population env s frame_chain kernel_name).1 with
  | none =>
    left
    refine ⟨rfl, ?_⟩
    unfold population enumeratedNames enumerated compiledProgram compiled poolLookup at hk
    simp [runOclKernel, population, missOpening, enumeratedNames, enumerated,
      compiledProgram, compiled, poolLookup, hmiss1, hcomp1, hk]
  | some k =>
    right
    refine ⟨k, rfl, ?_, ?_⟩ <;>
    · unfold population enumeratedNames enumerated compiledProgram compiled poolLookup at hk
      simp [runOclKernel, population, missOpening, enumeratedNames, enumerated,
        compiledProgram, compiled, poolLookup, hmiss1, hcomp1, hk]

/-- C10. Dispatched handle equals cached handle.  Let the environment
implement the pool as a map (`PoolModel`).  In a call that misses the cache
(the pool storing no null handle under the requested key, so that the key is
absent), compiles successfully, creates every kernel successfully (each handle
non-null) and whose enumerated names are pairwise distinct and contain the
requested name, there is a non-null handle `h` such that: the insert of `h`
under (context, project name, requested name) returned true; binding starts
on `h` and no other handle is bound or enqueued by this call; after the call
the pool stores `h` under that key and `getKernelFromPool` returns `h` for
it; and any later call for the same context, project and name hits the cache
(no compilation, enumeration, creation or insert) and binds and enqueues
`h` only. -/
theorem runOclKernel_dispatches_cached_handle (env : Env σ) (pool : σ → KernelPool)
    (hm : PoolModel env pool) (s : σ) (frame_chain : FrameChainPtr)
    (kernel_name : String) (work_dims : cl_uint) (global_work_size local_work_size : WorkSize)
    (value : KernelArg) (rest : List KernelArg)
    (hmiss : CacheMiss env s frame_chain kernel_name)
    (hclean : (pool s).find (env.getContext s frame_chain, env.getProjectName s frame_chain,
      kernel_name) ≠ some nullKernel)
    (hcomp : CompileSucceeds env s frame_chain kernel_name)
    (hall : AllCreated (runOclKernel env s frame_chain kernel_name work_dims global_work_size
      local_work_size value rest).trace)
    (hnn : HandlesNonNull (runOclKernel env s frame_chain kernel_name work_dims
      global_work_size local_work_size value rest).trace)
    (hnodup : (enumeratedNames env s frame_chain kernel_name).Nodup)
    (hin : kernel_name ∈ enumeratedNames env s frame_chain kernel_name) :
    ∃ h, h ≠ nullKernel ∧
      Event.insertKernelToPool (env.getContext s frame_chain)
          (env.getProjectName s frame_chain) kernel_name h true
        ∈ (runOclKernel env s frame_chain kernel_name work_dims global_work_size
          local_work_size value rest).trace ∧
      (∃ c, Event.clSetKernelArg h 0 value.size value.value c
        ∈ (runOclKernel env s frame_chain kernel_name work_dims global_work_size
          local_work_size value rest).trace) ∧
      (∀ e ∈ (runOclKernel env s frame_chain kernel_name work_dims global_work_size
          local_work_size value rest).trace,
        ∀ k, e.usedKernel = some k → k = h) ∧
      (pool (runOclKernel env s frame_chain kernel_name work_dims global_work_size
          local_work_size value rest).state).find
        (env.getContext s frame_chain, env.getProjectName s frame_chain, kernel_name)
          = some h ∧
      (env.getKernelFromPool (runOclKernel env s frame_chain kernel_name work_dims
          global_work_size local_work_size value rest).state (env.getContext s frame_chain)
          (env.getProjectName s frame_chain) kernel_name).1 = h ∧
      (∀ (frame_chain2 : FrameChainPtr) (work_dims2 : cl_uint)
          (global_work_size2 local_work_size2 : WorkSize) (value2 : KernelArg)
          (rest2 : List KernelArg),
        env.getContext (runOclKernel env s frame_chain kernel_name work_dims
            global_work_size local_work_size value rest).state frame_chain2
          = env.getContext s frame_chain →
        env.getProjectName (runOclKernel env s frame_chain kernel_name work_dims
            global_work_size local_work_size value rest).state frame_chain2
          = env.getProjectName s frame_chain →
        (∀ e ∈ (runOclKernel env (runOclKernel env s frame_chain kernel_name work_dims
              global_work_size local_work_size value rest).state frame_chain2 kernel_name
              work_dims2 global_work_size2 local_work_size2 value2 rest2).trace,
          e.kind ≠ Kind.compile ∧ e.kind ≠ Kind.names ∧ e.kind ≠ Kind.create ∧
            e.kind ≠ Kind.insert) ∧
        (∃ c, Event.clSetKernelArg h 0 value2.size value2.value c
          ∈ (runOclKernel env (runOclKernel env s frame_chain kernel_name work_dims
              global_work_size local_work_size value rest).state frame_chain2 kernel_name
              work_dims2 global_work_size2 local_work_size2 value2 rest2).trace) ∧
        (∀ e ∈ (runOclKernel env (runOclKernel env s frame_chain kernel_name work_dims
              global_work_size local_work_size value rest).state frame_chain2 kernel_name
              work_dims2 global_work_size2 local_work_size2 value2 rest2).trace,
          ∀ k, e.usedKernel = some k → k = h)) := by
  -- the key is absent before the call
  have habsent : (pool s).find (env.getContext s frame_chain,
      env.getProjectName s frame_chain, kernel_name) = none := by
    have hget := hm.lookup_ret s (env.getContext s frame_chain)
      (env.getProjectName s frame_chain) kernel_name
    have hmiss1 := hmiss
    unfold CacheMiss poolLookup at hmiss1
    rw [hmiss1] at hget
    unfold KernelPool.get at hget
    cases hf : (pool s).find (env.getContext s frame_chain,
      env.getProjectName s frame_chain, kernel_name) with
    | none => rfl
    | some x =>
      rw [hf] at hget hclean
      simp only [Option.getD_some] at hget
      exact absurd (congrArg some hget.symm) hclean
  -- the pool at the start of the loop is the pool before the call
  have hstart : pool (enumerated env s frame_chain kernel_name).2 = pool s := by
    unfold enumerated compiled poolLookup
    rw [hm.names_pool, hm.compile_pool, hm.lookup_pool]
  have hev := createKernels_events env (compiledProgram env s frame_chain kernel_name)
    (env.getContext s frame_chain) (env.getProjectName s frame_chain) kernel_name
    (enumeratedNames env s frame_chain kernel_name) nullKernel
    (enumerated env s frame_chain kernel_name).2
  have hloop := (createKernels_pool env pool hm (compiledProgram env s frame_chain kernel_name)
    (env.getContext s frame_chain) (env.getProjectName s frame_chain) kernel_name
    (enumeratedNames env s frame_chain kernel_name) nullKernel
    (enumerated env s frame_chain kernel_name).2).2 hin hnodup (by rw [hstart]; exact habsent)
  rcases runOclKernel_miss_unfold env s frame_chain kernel_name work_dims global_work_size
      local_work_size value rest hmiss hcomp with ⟨hnone, ht⟩ | ⟨k, hsome, ht, hstate⟩
  · exfalso
    apply hev.2 hnone
    intro e he
    apply hall e
    rw [ht]
    exact List.mem_append_right _ he
  · obtain ⟨h, h1, h2, h3, h4⟩ := hloop (by
      unfold population at hsome
      rw [hsome]
      simp)
    have hkh : k = h := by
      unfold population at hsome
      rw [hsome] at h1
      exact Option.some.inj h1
    subst hkh
    have hne : k ≠ nullKernel := by
      apply handle_ne_null _ hnn (compiledProgram env s frame_chain kernel_name) kernel_name
      rw [ht]
      exact List.mem_append_left _ (List.mem_append_right _ h3)
    have hfinal : (pool (runOclKernel env s frame_chain kernel_name work_dims
        global_work_size local_work_size value rest).state).find
        (env.getContext s frame_chain, env.getProjectName s frame_chain, kernel_name)
          = some k := by
      rw [hstate, dispatchKernel_pool env pool hm]
      exact h2
    have hlookup : (env.getKernelFromPool (runOclKernel env s frame_chain kernel_name
        work_dims global_work_size local_work_size value rest).state
        (env.getContext s frame_chain) (env.getProjectName s frame_chain) kernel_name).1
          = k := by
      rw [hm.lookup_ret, KernelPool.get, hfinal]
      rfl
    refine ⟨k, hne, ?_, ?_, ?_, hfinal, hlookup, ?_⟩
    · rw [ht]
      exact List.mem_append_left _ (List.mem_append_right _ h4)
    · obtain ⟨code, tl, hd⟩ := dispatchKernel_first env frame_chain kernel_name work_dims
        global_work_size local_work_size value rest k
        (population env s frame_chain kernel_name).2.2 hne
      exact ⟨code, by rw [ht, hd]; simp⟩
    · rw [ht]
      intro e he x hx
      rcases List.mem_append.mp he with he | he
      · rcases List.mem_append.mp he with he | he
        · rcases mem_missOpening env s frame_chain kernel_name e he with hk | hk | hk <;>
            cases e <;> simp [Event.kind] at hk <;> simp [Event.usedKernel] at hx
        · rcases hev.1 e he with hk | hk <;>
            cases e <;> simp [Event.kind] at hk <;> simp [Event.usedKernel] at hx
      · rcases mem_dispatchKernel env frame_chain kernel_name work_dims global_work_size
          local_work_size value rest _ _ e he with
          ⟨j, z, v, c, rfl⟩ | ⟨b, rfl⟩ | ⟨ok, rfl⟩ <;> simp [Event.usedKernel] at hx <;>
          exact hx.symm
    · intro frame_chain2 work_dims2 global_work_size2 local_work_size2 value2 rest2 hctx hproj
      have hhit : ¬ CacheMiss env (runOclKernel env s frame_chain kernel_name work_dims
          global_work_size local_work_size value rest).state frame_chain2 kernel_name := by
        unfold CacheMiss poolLookup
        rw [hctx, hproj, hlookup]
        exact hne
      obtain ⟨f1, -, f3, f4⟩ := hit_facts env _ frame_chain2 kernel_name work_dims2
        global_work_size2 local_work_size2 value2 rest2 hhit
      have hl : (poolLookup env (runOclKernel env s frame_chain kernel_name work_dims
          global_work_size local_work_size value rest).state frame_chain2 kernel_name).1
          = k := by
        unfold poolLookup
        rw [hctx, hproj, hlookup]
      rw [hl] at f3 f4
      exact ⟨f1, f3, f4⟩

/-- C10 at a concrete call: the first run of `kernelX` on an empty pool binds
handle 11, and handle 11 is what the pool returns for `kernelX` afterwards. -/
theorem runOclKernel_dispatches_cached_handle_witness :
    PoolModel (scriptedEnv goodScript) id ∧
      CacheMiss (scriptedEnv goodScript) [] 0 "kernelX" ∧
      KernelPool.find [] (1, "projA", "kernelX") ≠ some nullKernel ∧
      CompileSucceeds (scriptedEnv goodScript) [] 0 "kernelX" ∧
      AllCreated (exampleRun goodScript []).trace ∧
      HandlesNonNull (exampleRun goodScript []).trace ∧
      (enumeratedNames (scriptedEnv goodScript) [] 0 "kernelX").Nodup ∧
      "kernelX" ∈ enumeratedNames (scriptedEnv goodScript) [] 0 "kernelX" ∧
      ∃ h, h ≠ nullKernel ∧
        Event.insertKernelToPool 1 "projA" "kernelX" h true
          ∈ (exampleRun goodScript []).trace ∧
        (∃ c, Event.clSetKernelArg h 0 8 5 c ∈ (exampleRun goodScript []).trace) ∧
        KernelPool.find (exampleRun goodScript []).state (1, "projA", "kernelX") = some h :=
  have w := runOclKernel_dispatches_cached_handle (scriptedEnv goodScript) id
    (scriptedEnv_poolModel goodScript rfl) [] 0 "kernelX" 1 (some [1024]) (some [64]) ⟨8, 5⟩ []
    (by decide) (by decide) (by decide) (by decide) (by decide) (by decide) (by decide)
  ⟨scriptedEnv_poolModel goodScript rfl, by decide, by decide, by decide, by decide,
    by decide, by decide, by decide,
    w.elim fun h hh => ⟨h, hh.1, hh.2.1, hh.2.2.1, hh.2.2.2.2.1⟩⟩

end ppl.common.ocl
